import Mathlib

/-!
Verification of the resilient fetch engine of `Bot_arb`
(`scrapers/async_base_scraper.py` and `scrapers/proxy_pool.py`).

The Python classes are shallowly embedded: every mutating method becomes a
pure function from state to state (returning its result alongside the new
state), wall-clock time (`time.time()`) is passed in explicitly as a
rational-number `now`, and Python dictionaries become association lists that
preserve insertion order, mirroring CPython dict semantics.
-/

namespace BotArb

/-! ## Association-list model of Python `dict` -/

/-- `d.get(k, dflt)` on a Python dict modelled as an insertion-ordered
association list. -/
def dictGet (d : List (String × α)) (k : String) (dflt : α) : α :=
  match d with
  | [] => dflt
  | kv :: rest => if kv.1 = k then kv.2 else dictGet rest k dflt

/-- `d.get(k)` / `k in d` lookup returning an option. -/
def dictFind (d : List (String × α)) (k : String) : Option α :=
  match d with
  | [] => none
  | kv :: rest => if kv.1 = k then some kv.2 else dictFind rest k

/-- `d[k] = v`: update in place when the key is present (keeping its
position, as CPython does), else append at the end. -/
def dictSet (d : List (String × α)) (k : String) (v : α) : List (String × α) :=
  match d with
  | [] => [(k, v)]
  | kv :: rest =>
      if kv.1 = k then (k, v) :: rest else kv :: dictSet rest k v

/-- `d.pop(k, None)`: remove the key if present. -/
def dictPop (d : List (String × α)) (k : String) : List (String × α) :=
  match d with
  | [] => []
  | kv :: rest => if kv.1 = k then rest else kv :: dictPop rest k

/-- `list(dict.fromkeys(xs))`: deduplicate keeping first occurrences in
order. -/
def pyDedup : List String → List String
  | [] => []
  | x :: xs => x :: (pyDedup (xs.filter (fun y => ¬ (y = x))))
termination_by l => l.length
decreasing_by
  simp only [List.length_cons]
  exact Nat.lt_succ_of_le (List.length_filter_le _ _)

/-! ## `ProxyPool` (scrapers/proxy_pool.py)

A proxy handle (the Python dict `{"http": url, "https": url}`) is determined
by its url, so `Optional[Dict[str, str]]` is modelled as `Option String`.
Timestamps and latencies are rationals. Failure counts are integers (Python
ints), so the `max(0, ...)` floor in `mark_success` is meaningful. -/

structure ProxyPool where
  proxies : List String
  failCounts : List (String × Int)
  latencies : List (String × List ℚ)
  blacklist : List (String × ℚ)
  /-- index into `proxies` of the element `itertools.cycle` yields next -/
  cyclePos : Nat
  maxFailures : Int
  cooldown : ℚ
  deriving Repr, DecidableEq

namespace ProxyPool

/-- `ProxyPool.__init__`. `proxies=None` and `proxies=[]` coincide (the
constructor guards with `if proxies else []`), so the argument is a plain
list. -/
def init (proxies : List String) (maxFailures : Int := 3) (cooldown : ℚ := 300) :
    ProxyPool :=
  let ps := pyDedup proxies
  { proxies := ps
    failCounts := ps.map (fun p => (p, 0))
    latencies := ps.map (fun p => (p, []))
    blacklist := []
    cyclePos := 0
    maxFailures := maxFailures
    cooldown := cooldown }

/-- `_prune_blacklist`: drop expired entries (`ts <= now`) and reset the
failure count of each expired proxy to 0. -/
def pruneBlacklist (s : ProxyPool) (now : ℚ) : ProxyPool :=
  let expired := s.blacklist.filter (fun pt => pt.2 ≤ now)
  { s with
    blacklist := s.blacklist.filter (fun pt => ¬ (pt.2 ≤ now))
    failCounts := expired.foldl (fun fc pt => dictSet fc pt.1 0) s.failCounts }

/-- `_is_available`: prune, then compare the failure count against
`max_failures`. Returns the answer together with the (pruned) state. -/
def isAvailable (s : ProxyPool) (now : ℚ) (proxy : String) : Bool × ProxyPool :=
  let s' := pruneBlacklist s now
  (decide (dictGet s'.failCounts proxy 0 < s'.maxFailures), s')

/-- Mean of a latency window; `none` models `float("inf")` for an empty
window (`mean(kv[1]) if kv[1] else float("inf")`). -/
def meanKey : List ℚ → Option ℚ
  | [] => none
  | l => some (l.sum / l.length)

/-- Ordering on sort keys: every finite mean sorts before `inf`. -/
def keyLE : Option ℚ → Option ℚ → Bool
  | some a, some b => decide (a ≤ b)
  | some _, none => true
  | none, some _ => false
  | none, none => true

/-- Stable insertion used to model Python's stable `sorted`. -/
def insortBy (le : α → α → Bool) (x : α) : List α → List α
  | [] => [x]
  | y :: ys => if le y x then y :: insortBy le x ys else x :: y :: ys

/-- Stable sort (insertion sort) modelling `sorted(..., key=...)`. -/
def sortBy (le : α → α → Bool) : List α → List α
  | [] => []
  | x :: xs => insortBy le x (sortBy le xs)

/-- The `ranked` list of `get`: latency items sorted by mean (empty window
= infinity). -/
def ranked (s : ProxyPool) : List (String × List ℚ) :=
  sortBy (fun a b => keyLE (meanKey a.2) (meanKey b.2)) s.latencies

/-- The scan `for proxy, _ in ranked: if self._is_available(proxy): return`,
threading the state through the pruning done by each availability check. -/
def scanRanked (s : ProxyPool) (now : ℚ) :
    List (String × List ℚ) → Option String × ProxyPool
  | [] => (none, s)
  | (p, _) :: rest =>
      let (ok, s') := s.isAvailable now p
      if ok then (some p, s') else scanRanked s' now rest

/-- One pass of `next`'s bounded cycle walk: draw up to `fuel` proxies from
the cycle (`next(self._cycle)` yields `proxies[cyclePos]` and advances),
returning the first available one. The empty-list guard is unreachable
(`next` refuses an empty pool before calling this). -/
def scanCycle (s : ProxyPool) (now : ℚ) : Nat → Option String × ProxyPool
  | 0 => (none, s)
  | fuel + 1 =>
      if s.proxies.isEmpty then (none, s)
      else
        let proxy := s.proxies.getD (s.cyclePos % s.proxies.length) ""
        let s₁ := { s with cyclePos := (s.cyclePos + 1) % s.proxies.length }
        let (ok, s₂) := s₁.isAvailable now proxy
        if ok then (some proxy, s₂) else scanCycle s₂ now fuel

/-- `next()`: force-rotate through the cycle, at most one full revolution. -/
def next (s : ProxyPool) (now : ℚ) : Option String × ProxyPool :=
  if s.proxies = [] then (none, s)
  else scanCycle s now s.proxies.length

/-- `get()`: best available proxy by mean latency, falling back to
`next()` when the ranked scan finds none. -/
def get (s : ProxyPool) (now : ℚ) : Option String × ProxyPool :=
  if s.proxies = [] then (none, s)
  else
    match scanRanked s now s.ranked with
    | (some p, s') => (some p, s')
    | (none, s') => s'.next now

/-- `mark_failed`: increment the failure count; blacklist when it reaches
`max_failures`. -/
def markFailed (s : ProxyPool) (now : ℚ) (proxy : Option String) : ProxyPool :=
  match proxy with
  | none => s
  | some url =>
      let fc := dictGet s.failCounts url 0 + 1
      let s' := { s with failCounts := dictSet s.failCounts url fc }
      if s.maxFailures ≤ fc then
        { s' with blacklist := dictSet s'.blacklist url (now + s.cooldown) }
      else s'

/-- `mark_success`: decrement the failure count with floor 0 and clear the
blacklist entry. -/
def markSuccess (s : ProxyPool) (proxy : Option String) : ProxyPool :=
  match proxy with
  | none => s
  | some url =>
      { s with
        failCounts := dictSet s.failCounts url (max 0 (dictGet s.failCounts url 0 - 1))
        blacklist := dictPop s.blacklist url }

/-- `mark_latency`: append to the sliding window, evicting the oldest
sample past cap 20. -/
def markLatency (s : ProxyPool) (proxy : Option String) (duration : ℚ) :
    ProxyPool :=
  match proxy with
  | none => s
  | some url =>
      let w := dictGet s.latencies url [] ++ [duration]
      let w' := if 20 < w.length then w.drop 1 else w
      { s with latencies := dictSet s.latencies url w' }

/-- The read-only snapshot returned by `stats()`. -/
structure Stats where
  failCounts : List (String × Int)
  avgLatencies : List (String × Option ℚ)
  blacklist : List (String × ℚ)
  deriving Repr, DecidableEq

/-- `stats()`: prune, then export the health metrics. -/
def stats (s : ProxyPool) (now : ℚ) : Stats × ProxyPool :=
  let s' := pruneBlacklist s now
  ({ failCounts := s'.failCounts
     avgLatencies := s'.latencies.map (fun pl => (pl.1, meanKey pl.2))
     blacklist := s'.blacklist }, s')

/-- A run of consecutive `mark_failed(p)` calls at the given times. -/
def iterMarkFailed (s : ProxyPool) (p : String) : List ℚ → ProxyPool
  | [] => s
  | t :: ts => iterMarkFailed (s.markFailed t (some p)) p ts

/-- Proxy `p` has been reset: no blacklist entry, failure count 0. -/
def Cleared (p : String) (s : ProxyPool) : Prop :=
  dictFind s.blacklist p = none ∧ dictGet s.failCounts p 0 = 0

/-- Proxy `p` is blacklisted until `t`, which is still in the future at
`now`, with a failure count at the `max_failures` ceiling (and well-formed
blacklist keys). -/
def Blocked (p : String) (t now : ℚ) (s : ProxyPool) : Prop :=
  dictFind s.blacklist p = some t ∧ now < t ∧
    s.maxFailures ≤ dictGet s.failCounts p 0 ∧
    (s.blacklist.map Prod.fst).Nodup

end ProxyPool

/-! ## Circuit breaker (`_cb_get` / `_cb_allow` / `_cb_record_success` /
`_cb_record_failure` in scrapers/async_base_scraper.py)

The Python record is `{"fail_count": int, "state": str, "opened_at": float}`
stored per endpoint key in `self._cb_store`. -/

inductive CBState where
  | closed
  | opened
  | halfOpen
  deriving Repr, DecidableEq

structure CBRecord where
  failCount : Int
  state : CBState
  openedAt : ℚ
  deriving Repr, DecidableEq

/-- The record `_cb_get` creates lazily on first use. -/
def cbFresh : CBRecord := { failCount := 0, state := .closed, openedAt := 0 }

/-- `_cb_get`: fetch the record for a key, creating it lazily. Returns the
record and the (possibly extended) store. -/
def cbGet (store : List (String × CBRecord)) (key : String) :
    CBRecord × List (String × CBRecord) :=
  match dictFind store key with
  | some r => (r, store)
  | none => (cbFresh, dictSet store key cbFresh)

/-- `_cb_allow` on a single record: closed admits; open admits (moving to
half-open) only once `recovery_timeout` has elapsed since `opened_at`;
half-open admits a test call. -/
def cbAllow (recoveryTimeout : ℚ) (now : ℚ) (r : CBRecord) : Bool × CBRecord :=
  match r.state with
  | .closed => (true, r)
  | .opened =>
      if recoveryTimeout ≤ now - r.openedAt then (true, { r with state := .halfOpen })
      else (false, r)
  | .halfOpen => (true, r)

/-- `_cb_record_success`: reset the record to a closed, zeroed state. -/
def cbRecordSuccess (_r : CBRecord) : CBRecord :=
  { failCount := 0, state := .closed, openedAt := 0 }

/-- `_cb_record_failure`: increment the failure count and open the breaker
(stamping `opened_at = now`) once the count reaches `failure_threshold`. -/
def cbRecordFailure (failureThreshold : Int) (now : ℚ) (r : CBRecord) : CBRecord :=
  let f := r.failCount + 1
  if failureThreshold ≤ f then { failCount := f, state := .opened, openedAt := now }
  else { r with failCount := f }

/-- Store-level `_cb_allow key`. -/
def cbAllowStore (recoveryTimeout : ℚ) (now : ℚ) (store : List (String × CBRecord))
    (key : String) : Bool × List (String × CBRecord) :=
  let (r, store') := cbGet store key
  let (ok, r') := cbAllow recoveryTimeout now r
  (ok, dictSet store' key r')

/-- Store-level `_cb_record_success key`. -/
def cbRecordSuccessStore (store : List (String × CBRecord)) (key : String) :
    List (String × CBRecord) :=
  let (r, store') := cbGet store key
  dictSet store' key (cbRecordSuccess r)

/-- Store-level `_cb_record_failure key`. -/
def cbRecordFailureStore (failureThreshold : Int) (now : ℚ)
    (store : List (String × CBRecord)) (key : String) : List (String × CBRecord) :=
  let (r, store') := cbGet store key
  dictSet store' key (cbRecordFailure failureThreshold now r)

/-- `k` consecutive `_cb_record_failure` calls on one record, the
`(i+1)`-th at time `ts i`. -/
def cbFailIter (failureThreshold : Int) (ts : Nat → ℚ) : Nat → CBRecord → CBRecord
  | 0, r => r
  | k + 1, r =>
      cbRecordFailure failureThreshold (ts k) (cbFailIter failureThreshold ts k r)

/-! ## Browser context cache (`_get_browser_context`)

A live Playwright context handle is modelled by a numeric identity drawn
from a fresh-id counter; `OrderedDict` becomes an insertion-ordered
association list whose head is the least-recently-used entry. -/

/-- does the first char list start with the second? -/
def charsStart : List Char → List Char → Bool
  | _, [] => true
  | [], _ :: _ => false
  | c :: cs, d :: ds => c == d && charsStart cs ds

/-- does the first char list contain the second as a contiguous run? -/
def charsContain : List Char → List Char → Bool
  | [], needle => needle.isEmpty
  | c :: cs, needle => charsStart (c :: cs) needle || charsContain cs needle

/-- substring test (Python `needle in haystack`). -/
def strContains (haystack needle : String) : Bool :=
  charsContain haystack.data needle.data

/-- suffix test (Python `haystack.endswith(needle)`). -/
def strEndsWith (haystack needle : String) : Bool :=
  charsStart haystack.data.reverse needle.data.reverse

structure BrowserProfile where
  locale : String
  timezoneId : String
  viewportW : Nat
  viewportH : Nat
  mobile : Bool
  deriving Repr, DecidableEq

/-- `AsyncBaseScraper.BROWSER_PROFILES`. -/
def BROWSER_PROFILES : List BrowserProfile :=
  [ { locale := "en-US", timezoneId := "America/New_York", viewportW := 1366, viewportH := 768, mobile := false }
  , { locale := "en-US", timezoneId := "America/Los_Angeles", viewportW := 1440, viewportH := 900, mobile := false }
  , { locale := "en-GB", timezoneId := "Europe/London", viewportW := 1920, viewportH := 1080, mobile := false }
  , { locale := "de-DE", timezoneId := "Europe/Berlin", viewportW := 1536, viewportH := 864, mobile := false }
  , { locale := "en-KE", timezoneId := "Africa/Nairobi", viewportW := 1600, viewportH := 900, mobile := false }
  , { locale := "en-US", timezoneId := "America/Chicago", viewportW := 390, viewportH := 844, mobile := true }
  , { locale := "en-US", timezoneId := "America/New_York", viewportW := 412, viewportH := 915, mobile := true } ]

/-- `AsyncBaseScraper.USER_AGENTS`. -/
def USER_AGENTS : List String :=
  [ "Mozilla/5.0 (Windows NT 10.0; Win64; x64) AppleWebKit/537.36 (KHTML, like Gecko) Chrome/114.0 Safari/537.36"
  , "Mozilla/5.0 (Macintosh; Intel Mac OS X 10_15_7) AppleWebKit/605.1.15 (KHTML, like Gecko) Version/14.0 Safari/605.1.15"
  , "Mozilla/5.0 (X11; Linux x86_64) AppleWebKit/537.36 (KHTML, like Gecko) Chrome/113.0 Safari/537.36"
  , "Mozilla/5.0 (iPhone; CPU iPhone OS 16_0 like Mac OS X) AppleWebKit/605.1.15 (KHTML, like Gecko) Version/16.0 Mobile/15E148 Safari/604.1"
  , "Mozilla/5.0 (Linux; Android 11; Pixel 5) AppleWebKit/537.36 (KHTML, like Gecko) Chrome/113.0 Mobile Safari/537.36" ]

def CONTEXT_TTL_SEC : ℚ := 180
def CONTEXT_CACHE_MAX : Nat := 6

/-- Inhabitant used only as the (unreachable) `List.getD` fallback. -/
def defaultProfile : BrowserProfile :=
  { locale := "", timezoneId := "", viewportW := 0, viewportH := 0, mobile := false }

/-- `pick_profile` inside `_get_browser_context`: a mobile-looking UA picks
among mobile profiles when any exist, otherwise a desktop profile is
chosen; `choice` resolves the `random.choice` draw by index. -/
def pickProfile (ua : String) (choice : Nat) : BrowserProfile :=
  let isMobile := strContains ua "Mobile" ∨ strContains ua "iPhone" ∨ strContains ua "Android"
  let mobiles := BROWSER_PROFILES.filter (·.mobile)
  let desktops := BROWSER_PROFILES.filter (fun p => ¬ p.mobile)
  if isMobile ∧ ¬ mobiles.isEmpty then
    mobiles.getD (choice % mobiles.length) defaultProfile
  else if ¬ desktops.isEmpty then
    desktops.getD (choice % desktops.length) defaultProfile
  else
    BROWSER_PROFILES.getD (choice % BROWSER_PROFILES.length) defaultProfile

/-- A cached browser context: the live handle is identified by `ctxId`
(object identity), `createdAt` is its creation timestamp. -/
structure CacheEntry where
  ctxId : Nat
  createdAt : ℚ
  deriving Repr, DecidableEq

/-- The context-cache slice of the scraper's state: `cache` models the
`OrderedDict _context_cache` (head = least recently used), `profiles` and
`uas` the side dicts `_context_profiles` / `_context_ua`, `ua` the current
`self.ua`, and `nextId` generates fresh context identities. -/
structure CtxCache where
  cache : List (String × CacheEntry)
  profiles : List (String × BrowserProfile)
  uas : List (String × String)
  ua : String
  nextId : Nat
  deriving Repr, DecidableEq

/-- `OrderedDict.move_to_end(key)`. -/
def moveToEnd (d : List (String × α)) (k : String) : List (String × α) :=
  match dictFind d k with
  | none => d
  | some v => dictPop d k ++ [(k, v)]

/-- The `while len(cache) >= CONTEXT_CACHE_MAX: popitem(last=False)` LRU
eviction loop (the evicted head entries are closed). -/
def evictWhileFull (l : List (String × CacheEntry)) : List (String × CacheEntry) :=
  if CONTEXT_CACHE_MAX ≤ l.length then
    match l with
    | [] => []
    | _ :: rest => evictWhileFull rest
  else l

/-- The TTL prune at the top of `_get_browser_context`: close and drop
every cached context older than `CONTEXT_TTL_SEC`. -/
def ctxPrune (s : CtxCache) (now : ℚ) : CtxCache :=
  let expired := s.cache.filter (fun kc => CONTEXT_TTL_SEC ≤ now - kc.2.createdAt)
  { s with
    cache := s.cache.filter (fun kc => ¬ (CONTEXT_TTL_SEC ≤ now - kc.2.createdAt))
    profiles := expired.foldl (fun d kc => dictPop d kc.1) s.profiles
    uas := expired.foldl (fun d kc => dictPop d kc.1) s.uas }

/-- `_get_browser_context(proxy)`: prune TTL-expired entries; reuse the
entry under the proxy key only when its stored UA equals the current UA
(marking it most recently used); otherwise close any stale entry, evict
LRU entries down to capacity, and create a fresh context bound to the
current UA and a newly picked fingerprint profile. `now` is `time.time()`
and `profileChoice` resolves the `random.choice` in `pick_profile`.
Returns the context handle's identity with the new state. -/
def getBrowserContext (s : CtxCache) (proxy : Option String) (now : ℚ)
    (profileChoice : Nat) : Nat × CtxCache :=
  let key := match proxy with | some p => p | none => "direct"
  -- prune expired entries
  let s₁ := ctxPrune s now
  let cached := dictFind s₁.cache key
  let cachedUA := dictFind s₁.uas key
  match cached with
  | some entry =>
      if cachedUA = some s₁.ua then
        -- still valid; mark as recently used and return
        (entry.ctxId, { s₁ with cache := moveToEnd s₁.cache key })
      else
        -- close old entry, evict to capacity, build fresh
        let s₂ : CtxCache :=
          { s₁ with
            cache := dictPop s₁.cache key
            profiles := dictPop s₁.profiles key
            uas := dictPop s₁.uas key }
        buildContext s₂ key now profileChoice
  | none => buildContext s₁ key now profileChoice
where
  /-- the tail of `_get_browser_context` past the reuse check: LRU
  eviction, profile pick, context creation and insertion. -/
  buildContext (s : CtxCache) (key : String) (now : ℚ) (profileChoice : Nat) :
      Nat × CtxCache :=
    let evicted := evictWhileFull s.cache
    let evictedKeys := s.cache.take (s.cache.length - evicted.length)
    let s' : CtxCache :=
      { s with
        cache := evicted
        profiles := evictedKeys.foldl (fun d kc => dictPop d kc.1) s.profiles
        uas := evictedKeys.foldl (fun d kc => dictPop d kc.1) s.uas }
    let profile := pickProfile s'.ua profileChoice
    let ctx := s'.nextId
    (ctx,
      { s' with
        profiles := dictSet s'.profiles key profile
        cache := dictSet s'.cache key { ctxId := ctx, createdAt := now }
        uas := dictSet s'.uas key s'.ua
        nextId := s'.nextId + 1 })

/-- Well-formedness of the context cache: cached context identities are
below the fresh counter and pairwise distinct (object identity of live
Playwright contexts), and cache keys are unique. -/
def CtxWF (s : CtxCache) : Prop :=
  (∀ kc ∈ s.cache, kc.2.ctxId < s.nextId) ∧
    (s.cache.map (fun kc => kc.2.ctxId)).Nodup ∧
    (s.cache.map Prod.fst).Nodup

/-! ## Retry orchestrator (`with_retries`)

Python exceptions are classified by their type so that the
`except local_retry_on` / `except Exception` dispatch can be embedded
faithfully. In httpx, `HTTPStatusError` (raised by `raise_for_status`) and
`RequestError` (connection errors, timeouts) are sibling subclasses of
`HTTPError`; `RuntimeError` is unrelated to both. -/

inductive PyExn where
  /-- an `httpx.RequestError` subclass: connect error, timeout, ... -/
  | requestError
  /-- a `playwright.async_api.Error` -/
  | pwError
  /-- `httpx.HTTPStatusError` from `raise_for_status` on a 4xx/5xx
  response; carries the response status and its `Retry-After` header. -/
  | httpStatusError (status : Nat) (retryAfter : Option ℚ)
  /-- a `RuntimeError`, e.g. the `"Empty result"` soft-failure marker -/
  | runtimeError (msg : String)
  /-- any other exception (configuration/programming errors, ...) -/
  | otherError (msg : String)
  deriving Repr, DecidableEq

/-- `isinstance(e, retry_on)` for the default
`retry_on = (httpx.RequestError, PWError)`: `httpx.HTTPStatusError` and
`RuntimeError` are instances of neither. -/
def defaultRetryOn : PyExn → Bool
  | .requestError => true
  | .pwError => true
  | _ => false

/-- `isinstance(e, retry_on)` for a caller passing
`retry_on = (httpx.HTTPError, PWError)`: this also matches
`httpx.HTTPStatusError` (4xx/5xx responses), making them retryable. -/
def httpErrorRetryOn : PyExn → Bool
  | .requestError => true
  | .pwError => true
  | .httpStatusError _ _ => true
  | _ => false

/-- The environment resolving one loop iteration of `with_retries`: the
random draws (`random.choice(USER_AGENTS)`, `random.uniform(*jitter)`), the
wall clock during the attempt, the measured latency, and what the wrapped
coroutine did — raise, return `None`, or return a value. -/
structure AttemptEnv (α : Type) where
  uaChoice : String
  jitter : ℚ
  now : ℚ
  duration : ℚ
  outcome : Except PyExn (Option α)

/-- The metrics dict of `AsyncBaseScraper`. -/
structure Metrics where
  requestsMade : Nat
  successfulRequests : Nat
  failedRequests : Nat
  matchesCollected : Nat
  latencyHistogram : List ℚ
  proxySuccess : Nat
  proxyFail : Nat
  endpointErrors : List (String × Nat)
  deriving Repr, DecidableEq

def Metrics.init : Metrics :=
  { requestsMade := 0, successfulRequests := 0, failedRequests := 0
    matchesCollected := 0, latencyHistogram := [], proxySuccess := 0
    proxyFail := 0, endpointErrors := [] }

/-- The slice of `AsyncBaseScraper` state that `with_retries` reads and
writes. The httpx client's `User-Agent` header always mirrors `ua` (the
wrapper re-syncs it on every attempt), so it is not modelled separately. -/
structure Engine where
  ua : String
  pool : ProxyPool
  cbStore : List (String × CBRecord)
  metrics : Metrics
  failureThreshold : Int
  recoveryTimeout : ℚ
  defaultMaxRetries : Nat
  deriving Repr, DecidableEq

/-- Observable trace of one call of a `with_retries`-wrapped primitive.
`retval` is the Python outcome of the wrapped call: `Except.ok none` is the
failure sentinel `None`, `Except.error e` would be an exception escaping
the wrapper. -/
structure RetryTrace (α : Type) where
  retval : Except PyExn (Option α)
  attemptsMade : Nat
  sleeps : List ℚ
  uasUsed : List String
  proxiesUsed : List (Option String)
  st : Engine

/-- The shared tail after the `for` loop of `with_retries` (reached by
exhausting retries or by the non-retryable `break`): record a
circuit-breaker failure, bump `endpoint_errors`, return `None`. -/
def retryExhaust (α : Type) (cbKey : String) (now : ℚ) (eng : Engine)
    (attemptsMade : Nat) (sleeps : List ℚ) (uasUsed : List String)
    (proxiesUsed : List (Option String)) : RetryTrace α :=
  { retval := .ok none
    attemptsMade := attemptsMade
    sleeps := sleeps
    uasUsed := uasUsed
    proxiesUsed := proxiesUsed
    st :=
      { eng with
        cbStore := cbRecordFailureStore eng.failureThreshold now eng.cbStore cbKey
        metrics :=
          { eng.metrics with
            endpointErrors :=
              dictSet eng.metrics.endpointErrors cbKey
                (dictGet eng.metrics.endpointErrors cbKey 0 + 1) } } }

mutual

/-- The `for attempt in range(1, local_max_retries + 1)` loop of
`with_retries`. `attempt` is the 1-based loop counter, `remaining` the
iterations left; `env` resolves attempt `n`'s randomness, clock and
coroutine outcome. -/
def retryLoop {α : Type} (cbKey : String) (backoffBase : ℚ)
    (retryOn : PyExn → Bool) (env : Nat → AttemptEnv α) :
    (attempt remaining : Nat) → Engine → Option String → List ℚ →
    List String → List (Option String) → RetryTrace α
  | attempt, 0, eng, _proxy, sleeps, uas, proxies =>
      -- loop exhausted without returning
      retryExhaust α cbKey (env attempt).now eng (attempt - 1) sleeps uas proxies
  | attempt, remaining + 1, eng, proxy, sleeps, uas, proxies =>
    let e := env attempt
    -- rotate UA for this attempt (and sync the httpx header)
    let eng₁ : Engine := { eng with ua := e.uaChoice }
    let uas' := uas ++ [e.uaChoice]
    let proxies' := proxies ++ [proxy]
    match e.outcome with
    | .ok result =>
        -- the coroutine returned: latency metrics are recorded
        let eng₂ : Engine :=
          { eng₁ with
            metrics := { eng₁.metrics with
              latencyHistogram := eng₁.metrics.latencyHistogram ++ [e.duration] }
            pool := eng₁.pool.markLatency proxy e.duration }
        match result with
        | some v =>
            -- success: mark proxy, record breaker success, return
            let eng₃ : Engine :=
              { eng₂ with
                metrics := { eng₂.metrics with
                  successfulRequests := eng₂.metrics.successfulRequests + 1
                  proxySuccess := eng₂.metrics.proxySuccess +
                    (if proxy.isSome then 1 else 0) }
                pool := eng₂.pool.markSuccess proxy
                cbStore := cbRecordSuccessStore eng₂.cbStore cbKey }
            { retval := .ok (some v), attemptsMade := attempt, sleeps := sleeps
              uasUsed := uas', proxiesUsed := proxies', st := eng₃ }
        | none =>
            -- `raise RuntimeError("Empty result")`, dispatched below
            retryDispatch cbKey backoffBase retryOn env attempt remaining
              eng₂ proxy (.runtimeError "Empty result") sleeps uas' proxies'
    | .error exn =>
        retryDispatch cbKey backoffBase retryOn env attempt remaining
          eng₁ proxy exn sleeps uas' proxies'
termination_by _ remaining _ _ _ _ _ => 2 * remaining

/-- Exception dispatch of the loop body: `except local_retry_on` marks the
proxy failed, rotates the proxy via `pool.next()`, sleeps the exponential
backoff and continues; `except Exception` breaks out to the shared failure
tail. -/
def retryDispatch {α : Type} (cbKey : String) (backoffBase : ℚ)
    (retryOn : PyExn → Bool) (env : Nat → AttemptEnv α)
    (attempt remaining : Nat) (eng : Engine) (proxy : Option String)
    (exn : PyExn) (sleeps : List ℚ) (uas : List String)
    (proxies : List (Option String)) : RetryTrace α :=
  let e := env attempt
  if retryOn exn then
    let eng₁ : Engine :=
      { eng with
        metrics := { eng.metrics with
          failedRequests := eng.metrics.failedRequests + 1
          proxyFail := eng.metrics.proxyFail + (if proxy.isSome then 1 else 0) }
        pool := eng.pool.markFailed e.now proxy }
    -- rotate to a new proxy for the next attempt
    let (proxy', pool') := eng₁.pool.next e.now
    let eng₂ : Engine := { eng₁ with pool := pool' }
    -- exponential backoff with jitter
    let sleepFor := (backoffBase * 2 ^ (attempt - 1)) * e.jitter
    retryLoop cbKey backoffBase retryOn env (attempt + 1) remaining eng₂ proxy'
      (sleeps ++ [sleepFor]) uas proxies
  else
    -- non-retryable error: break and record
    let eng₁ : Engine :=
      { eng with
        metrics := { eng.metrics with
          failedRequests := eng.metrics.failedRequests + 1 } }
    retryExhaust α cbKey e.now eng₁ attempt sleeps uas proxies
termination_by 2 * remaining + 1

end

/-- `with_retries(coro_fn, ...)` applied to one invocation of the wrapped
coroutine: circuit-breaker admission, initial proxy pick, then the retry
loop. `proxiesKw` is the caller's `proxies=...` override (`kwargs.get`
falls through to `proxy_pool.get()` when it is falsy), `entryNow` is the
wall clock at entry. -/
def withRetries {α : Type} (cbKey : String) (backoffBase : ℚ)
    (retryOn : PyExn → Bool) (maxRetries : Nat) (env : Nat → AttemptEnv α)
    (eng : Engine) (entryNow : ℚ) (proxiesKw : Option String := none) :
    RetryTrace α :=
  let (allowed, store') :=
    cbAllowStore eng.recoveryTimeout entryNow eng.cbStore cbKey
  let eng₁ : Engine := { eng with cbStore := store' }
  if ¬ allowed then
    -- circuit blocked: return None with no attempt made
    { retval := .ok none, attemptsMade := 0, sleeps := [], uasUsed := []
      proxiesUsed := [], st := eng₁ }
  else
    let (proxy, pool₁) :=
      match proxiesKw with
      | some p => (some p, eng₁.pool)
      | none => eng₁.pool.get entryNow
    let eng₂ : Engine := { eng₁ with pool := pool₁ }
    retryLoop cbKey backoffBase retryOn env 1 maxRetries eng₂ proxy [] [] []

/-- The exception a loop iteration ends in, if any: the coroutine's own
raise, or the `RuntimeError("Empty result")` that the wrapper raises on a
`None` result. -/
def stepExn {α : Type} : Except PyExn (Option α) → Option PyExn
  | .ok (some _) => none
  | .ok none => some (.runtimeError "Empty result")
  | .error e => some e

/-- The iteration fails with an exception matched by `retry_on`. -/
def RetryableFail {α : Type} (retryOn : PyExn → Bool)
    (o : Except PyExn (Option α)) : Prop :=
  ∃ e, stepExn o = some e ∧ retryOn e = true

/-! ## The `try_api` primitive

What the network returned to one `client.get` call inside `try_api`'s
`_impl`, at the level the claims need: either an httpx transport error, or
a response with a status code, a (lowercased) content type, an optional
`Retry-After` header, and a JSON body. -/

inductive HttpFetch (β : Type) where
  /-- the GET itself raised `httpx.RequestError` (connect error, timeout) -/
  | netError
  | resp (status : Nat) (contentType : String) (retryAfter : Option ℚ) (body : β)

/-- The body of `try_api`'s `_impl` after the GET: `raise_for_status()`
raises `httpx.HTTPStatusError` for any 4xx/5xx status; otherwise the JSON
payload is returned when the content type is JSON, and `None` (an empty
result) when it is not. -/
def tryApiOutcome {β : Type} (f : HttpFetch β) : Except PyExn (Option β) :=
  match f with
  | .netError => .error .requestError
  | .resp status ctype retryAfter body =>
      if 400 ≤ status then .error (.httpStatusError status retryAfter)
      else if strContains ctype "application/json" ∨ strEndsWith ctype "+json" then
        .ok (some body)
      else .ok none

/-! ## `get_odds` — the three-tier fetch strategy chain

The wrapped fetch primitives and the subclass parser hooks are resolved by
an environment: `apiResult` / `htmlResult` / `browserResult` are the values
the three `with_retries`-wrapped calls return (`none` being the failure
sentinel `None`), the parsers may raise (`Except.error`, caught and logged
by `get_odds`), and the `*Truthy` functions give Python truthiness of the
fetched payloads (`if data:` / `if soup:` / `if html:`). -/

structure OddsEnv (J H M : Type) where
  apiResult : Option J
  apiTruthy : J → Bool
  parseApi : J → Except String (List M)
  htmlResult : Option H
  htmlTruthy : H → Bool
  paginate : H → Except String H
  parseHtml : H → Except String (List M)
  browserResult : Option String
  /-- `BeautifulSoup(html, "html.parser")` -/
  soupOf : String → H

/-- The three fetch tiers, in the order `get_odds` tries them. -/
inductive Tier where
  | api
  | staticHtml
  | browser
  deriving Repr, DecidableEq

/-- Block 1 of `get_odds` (`# 1) try API`): guarded by
`if api_endpoint:`; on truthy data the parse runs (exceptions caught and
logged) and a non-empty result is collected. The second component records
the tiers whose wrapped fetch primitive was invoked. -/
def apiStage {J H M : Type} (apiEndpoint : Option String)
    (env : OddsEnv J H M) : List M × List Tier :=
  match apiEndpoint with
  | none => (([] : List M), ([] : List Tier))
  | some _ =>
      match env.apiResult with
      | none => ([], [Tier.api])
      | some data =>
          if env.apiTruthy data then
            match env.parseApi data with
            | .ok parsed => ((if parsed.isEmpty then [] else parsed), [Tier.api])
            | .error _ => ([], [Tier.api])
          else ([], [Tier.api])

/-- Block 2 of `get_odds` (`# 2) try static HTML`): runs only while
`matches` is still empty (`if not matches:`). -/
def htmlStage {J H M : Type} (env : OddsEnv J H M)
    (acc : List M × List Tier) : List M × List Tier :=
  if acc.1.isEmpty then
    match env.htmlResult with
    | none => (acc.1, acc.2 ++ [Tier.staticHtml])
    | some soup =>
        if env.htmlTruthy soup then
          match (env.paginate soup).bind env.parseHtml with
          | .ok parsed =>
              ((if parsed.isEmpty then acc.1 else acc.1 ++ parsed),
                acc.2 ++ [Tier.staticHtml])
          | .error _ => (acc.1, acc.2 ++ [Tier.staticHtml])
        else (acc.1, acc.2 ++ [Tier.staticHtml])
  else acc

/-- Block 3 of `get_odds` (`# 3) browser fallback`): runs only while
`matches` is still empty; the fetched HTML string is soup-ified, paginated
and parsed like the static tier. -/
def browserStage {J H M : Type} (env : OddsEnv J H M)
    (acc : List M × List Tier) : List M × List Tier :=
  if acc.1.isEmpty then
    match env.browserResult with
    | none => (acc.1, acc.2 ++ [Tier.browser])
    | some html =>
        if ¬ (html = "") then
          match (env.paginate (env.soupOf html)).bind env.parseHtml with
          | .ok parsed =>
              ((if parsed.isEmpty then acc.1 else acc.1 ++ parsed),
                acc.2 ++ [Tier.browser])
          | .error _ => (acc.1, acc.2 ++ [Tier.browser])
        else (acc.1, acc.2 ++ [Tier.browser])
  else acc

/-- `get_odds(api_endpoint, sport_path)`: the three blocks in order. -/
def getOdds {J H M : Type} (apiEndpoint : Option String)
    (env : OddsEnv J H M) : List M × List Tier :=
  browserStage env (htmlStage env (apiStage apiEndpoint env))

/-! ## Lemmas about the dict model -/

theorem dictGet_dictSet_self (d : List (String × α)) (k : String) (v dflt : α) :
    dictGet (dictSet d k v) k dflt = v := by
  induction d with
  | nil => simp [dictSet, dictGet]
  | cons kv rest ih =>
      by_cases h : kv.1 = k
      · simp [dictSet, h, dictGet]
      · simp [dictSet, h, dictGet, ih]

theorem dictGet_dictSet_ne (d : List (String × α)) (k k' : String) (v dflt : α)
    (h : k' ≠ k) : dictGet (dictSet d k v) k' dflt = dictGet d k' dflt := by
  have h' : ¬ (k = k') := fun e => h e.symm
  induction d with
  | nil => simp [dictSet, dictGet, h']
  | cons kv rest ih =>
      by_cases hk : kv.1 = k
      · subst hk
        simp [dictSet, dictGet, h']
      · simp [dictSet, hk, dictGet, ih]

theorem dictFind_dictSet_self (d : List (String × α)) (k : String) (v : α) :
    dictFind (dictSet d k v) k = some v := by
  induction d with
  | nil => simp [dictSet, dictFind]
  | cons kv rest ih =>
      by_cases h : kv.1 = k
      · simp [dictSet, h, dictFind]
      · simp [dictSet, h, dictFind, ih]

theorem dictFind_dictSet_ne (d : List (String × α)) (k k' : String) (v : α)
    (h : k' ≠ k) : dictFind (dictSet d k v) k' = dictFind d k' := by
  have h' : ¬ (k = k') := fun e => h e.symm
  induction d with
  | nil => simp [dictSet, dictFind, h']
  | cons kv rest ih =>
      by_cases hk : kv.1 = k
      · subst hk
        simp [dictSet, dictFind, h']
      · simp [dictSet, hk, dictFind, ih]

/-- lookup misses exactly when the key is absent. -/
theorem dictFind_eq_none_iff (d : List (String × α)) (k : String) :
    dictFind d k = none ↔ k ∉ d.map Prod.fst := by
  induction d with
  | nil => simp [dictFind]
  | cons kv rest ih =>
      by_cases h : kv.1 = k
      · simp [dictFind, h]
      · have h' : ¬ (k = kv.1) := fun e => h e.symm
        simp [dictFind, h, h', ih]

theorem dictFind_mem {d : List (String × α)} {k : String} {v : α}
    (h : dictFind d k = some v) : (k, v) ∈ d := by
  induction d with
  | nil => simp [dictFind] at h
  | cons kv rest ih =>
      by_cases hk : kv.1 = k
      · simp only [dictFind, if_pos hk, Option.some.injEq] at h
        have hkv : kv = (k, v) := by
          obtain ⟨a, b⟩ := kv
          simp only at hk h
          rw [hk, h]
        rw [hkv]
        exact List.mem_cons_self _ _
      · simp only [dictFind, if_neg hk] at h
        exact List.mem_cons_of_mem _ (ih h)

theorem dictPop_of_not_mem (d : List (String × α)) (k : String)
    (h : k ∉ d.map Prod.fst) : dictPop d k = d := by
  induction d with
  | nil => simp [dictPop]
  | cons kv rest ih =>
      simp only [List.map_cons, List.mem_cons, not_or] at h
      have h1 : ¬ (kv.1 = k) := fun e => h.1 e.symm
      simp [dictPop, h1, ih h.2]

theorem keys_dictPop_subset (d : List (String × α)) (k k' : String)
    (h : k' ∈ (dictPop d k).map Prod.fst) : k' ∈ d.map Prod.fst := by
  induction d with
  | nil => simp [dictPop] at h
  | cons kv rest ih =>
      by_cases hk : kv.1 = k
      · simp only [dictPop, if_pos hk] at h
        simp [h]
      · simp only [dictPop, if_neg hk, List.map_cons, List.mem_cons] at h ⊢
        exact h.imp id ih

theorem dictFind_dictPop_self (d : List (String × α)) (k : String)
    (hnd : (d.map Prod.fst).Nodup) : dictFind (dictPop d k) k = none := by
  induction d with
  | nil => simp [dictPop, dictFind]
  | cons kv rest ih =>
      simp only [List.map_cons, List.nodup_cons] at hnd
      by_cases hk : kv.1 = k
      · simp only [dictPop, if_pos hk]
        rw [dictFind_eq_none_iff]
        rw [hk] at hnd
        exact hnd.1
      · simp only [dictPop, if_neg hk, dictFind, if_neg hk]
        exact ih hnd.2

theorem dictFind_dictPop_ne (d : List (String × α)) (k k' : String)
    (h : k' ≠ k) : dictFind (dictPop d k) k' = dictFind d k' := by
  induction d with
  | nil => simp [dictPop]
  | cons kv rest ih =>
      by_cases hk : kv.1 = k
      · have hkk' : ¬ (kv.1 = k') := by
          rw [hk]
          exact fun e => h e.symm
        have hkeq : ¬ (k = k') := fun e => h e.symm
        simp [dictPop, hk, dictFind, hkk', hkeq]
      · simp [dictPop, hk, dictFind, ih]

/-- a fold of `dictSet _ _ 0` writes touching only other keys preserves a
lookup. -/
theorem dictGet_foldl_set_of_not_mem (l : List (String × ℚ))
    (fc : List (String × Int)) (p : String) (dflt : Int)
    (h : p ∉ l.map Prod.fst) :
    dictGet (l.foldl (fun d pt => dictSet d pt.1 0) fc) p dflt =
      dictGet fc p dflt := by
  induction l generalizing fc with
  | nil => simp
  | cons pt rest ih =>
      simp only [List.map_cons, List.mem_cons, not_or] at h
      simp only [List.foldl_cons]
      rw [ih _ h.2, dictGet_dictSet_ne _ _ _ _ _ h.1]

/-- a fold of `dictSet _ _ 0` writes zeroes every key it touches. -/
theorem dictGet_foldl_set_of_mem (l : List (String × ℚ))
    (fc : List (String × Int)) (p : String) (dflt : Int)
    (h : p ∈ l.map Prod.fst) :
    dictGet (l.foldl (fun d pt => dictSet d pt.1 0) fc) p dflt = 0 := by
  induction l generalizing fc with
  | nil => simp at h
  | cons pt rest ih =>
      simp only [List.foldl_cons]
      by_cases hmem : p ∈ rest.map Prod.fst
      · exact ih _ hmem
      · simp only [List.map_cons, List.mem_cons] at h
        rcases h with h | h
        · rw [dictGet_foldl_set_of_not_mem _ _ _ _ hmem, h,
            dictGet_dictSet_self]
        · exact absurd h hmem

/-- a fold of `dictPop` over other keys preserves a lookup. -/
theorem dictFind_foldl_pop_of_ne (l : List (String × CacheEntry))
    (d : List (String × β)) (k : String)
    (h : ∀ x ∈ l, x.1 ≠ k) :
    dictFind (l.foldl (fun d kc => dictPop d kc.1) d) k = dictFind d k := by
  induction l generalizing d with
  | nil => simp
  | cons kc rest ih =>
      simp only [List.foldl_cons]
      rw [ih _ (fun x hx => h x (List.mem_cons_of_mem _ hx)),
        dictFind_dictPop_ne _ _ _ (fun hk => h kc (List.mem_cons_self _ _) hk.symm)]

/-- Keys with no duplicates determine values uniquely. -/
theorem keys_nodup_unique {α : Type} {d : List (String × α)}
    (hnd : (d.map Prod.fst).Nodup) {p : String} {a b : α}
    (ha : (p, a) ∈ d) (hb : (p, b) ∈ d) : a = b := by
  induction d with
  | nil => simp at ha
  | cons kv rest ih =>
      simp only [List.map_cons, List.nodup_cons] at hnd
      rcases List.mem_cons.mp ha with ha' | ha'
      · rcases List.mem_cons.mp hb with hb' | hb'
        · exact (Prod.ext_iff.mp (ha'.trans hb'.symm)).2
        · exfalso
          apply hnd.1
          have hp : p ∈ rest.map Prod.fst := List.mem_map_of_mem Prod.fst hb'
          have hkp : kv.1 = p := by rw [← ha']
          rw [hkp]
          exact hp
      · rcases List.mem_cons.mp hb with hb' | hb'
        · exfalso
          apply hnd.1
          have hp : p ∈ rest.map Prod.fst := List.mem_map_of_mem Prod.fst ha'
          have hkp : kv.1 = p := by rw [← hb']
          rw [hkp]
          exact hp
        · exact ih hnd.2 ha' hb'

/-- Filtering away the (unique) entry of a key removes the key. -/
theorem not_mem_keys_filter (d : List (String × ℚ)) (p : String) (t : ℚ)
    (keep : String × ℚ → Bool) (hnd : (d.map Prod.fst).Nodup)
    (hfind : dictFind d p = some t) (hkeep : keep (p, t) = false) :
    p ∉ (d.filter keep).map Prod.fst := by
  intro hmem
  rcases List.mem_map.mp hmem with ⟨kv, hkvmem, hfst⟩
  rcases List.mem_filter.mp hkvmem with ⟨hkvd, hkvkeep⟩
  have hkv : kv = (p, kv.2) := by
    obtain ⟨a, b⟩ := kv
    simp only at hfst ⊢
    rw [hfst]
  have hval : kv.2 = t :=
    keys_nodup_unique hnd (hkv ▸ hkvd) (dictFind_mem hfind)
  rw [hkv, hval, hkeep] at hkvkeep
  exact Bool.false_ne_true hkvkeep

/-- Filtering keeps the (unique) entry of a key when it satisfies the
predicate. -/
theorem dictFind_filter_of_keep (d : List (String × ℚ)) (p : String) (t : ℚ)
    (keep : String × ℚ → Bool) (hnd : (d.map Prod.fst).Nodup)
    (hfind : dictFind d p = some t) (hkeep : keep (p, t) = true) :
    dictFind (d.filter keep) p = some t := by
  induction d with
  | nil => simp [dictFind] at hfind
  | cons kv rest ih =>
      simp only [List.map_cons, List.nodup_cons] at hnd
      by_cases hk : kv.1 = p
      · simp only [dictFind, if_pos hk, Option.some.injEq] at hfind
        have hkv : kv = (p, t) := by
          obtain ⟨a, b⟩ := kv
          simp only at hk hfind
          rw [hk, hfind]
        rw [hkv, List.filter_cons_of_pos hkeep]
        simp [dictFind]
      · simp only [dictFind, if_neg hk] at hfind
        by_cases hkeep' : keep kv = true
        · rw [List.filter_cons_of_pos hkeep']
          simp only [dictFind, if_neg hk]
          exact ih hnd.2 hfind
        · rw [List.filter_cons_of_neg (by simpa using hkeep')]
          exact ih hnd.2 hfind

/-! ## ProxyPool invariants -/

namespace ProxyPool

theorem pruneBlacklist_clears (s : ProxyPool) (p : String) (t now : ℚ)
    (hnd : (s.blacklist.map Prod.fst).Nodup)
    (hfind : dictFind s.blacklist p = some t) (ht : t ≤ now) :
    Cleared p (s.pruneBlacklist now) := by
  constructor
  · rw [dictFind_eq_none_iff]
    exact not_mem_keys_filter _ p t _ hnd hfind (by simp [ht])
  · exact dictGet_foldl_set_of_mem _ _ _ _
      (List.mem_map_of_mem Prod.fst
        (List.mem_filter.mpr ⟨dictFind_mem hfind, by simp [ht]⟩))

theorem pruneBlacklist_blacklist (s : ProxyPool) (now : ℚ) :
    (s.pruneBlacklist now).blacklist =
      s.blacklist.filter (fun pt => ¬ (pt.2 ≤ now)) := rfl

theorem pruneBlacklist_failCounts (s : ProxyPool) (now : ℚ) :
    (s.pruneBlacklist now).failCounts =
      (s.blacklist.filter (fun pt => pt.2 ≤ now)).foldl
        (fun fc pt => dictSet fc pt.1 0) s.failCounts := rfl

theorem pruneBlacklist_preserves_cleared (s : ProxyPool) (p : String)
    (now' : ℚ) (h : Cleared p s) : Cleared p (s.pruneBlacklist now') := by
  obtain ⟨hbl, hfc⟩ := h
  have hnotmem : p ∉ s.blacklist.map Prod.fst := (dictFind_eq_none_iff _ _).mp hbl
  constructor
  · rw [pruneBlacklist_blacklist, dictFind_eq_none_iff]
    intro hmem
    rcases List.mem_map.mp hmem with ⟨kv, hkv, hfst⟩
    exact hnotmem (hfst ▸ List.mem_map_of_mem Prod.fst (List.mem_filter.mp hkv).1)
  · rw [pruneBlacklist_failCounts, dictGet_foldl_set_of_not_mem]
    · exact hfc
    · intro hmem
      rcases List.mem_map.mp hmem with ⟨kv, hkv, hfst⟩
      exact hnotmem (hfst ▸ List.mem_map_of_mem Prod.fst (List.mem_filter.mp hkv).1)

theorem pruneBlacklist_preserves_blocked (s : ProxyPool) (p : String)
    (t now : ℚ) (h : Blocked p t now s) :
    Blocked p t now (s.pruneBlacklist now) := by
  obtain ⟨hbl, ht, hfc, hnd⟩ := h
  have hexp : ∀ kv ∈ s.blacklist.filter (fun pt => pt.2 ≤ now), kv.1 ≠ p := by
    intro kv hkv hkp
    rcases List.mem_filter.mp hkv with ⟨hkvmem, hkvle⟩
    have hkv' : kv = (p, kv.2) := by
      obtain ⟨a, b⟩ := kv
      simp only at hkp ⊢
      rw [hkp]
    have hval : kv.2 = t := keys_nodup_unique hnd (hkv' ▸ hkvmem) (dictFind_mem hbl)
    rw [hval] at hkvle
    exact absurd (of_decide_eq_true hkvle) (not_le.mpr ht)
  refine ⟨?_, ht, ?_, ?_⟩
  · exact dictFind_filter_of_keep _ _ _ _ hnd hbl (by simp [not_le.mpr ht])
  · -- the failure count of p is untouched: all expired keys differ from p
    show s.maxFailures ≤ dictGet (List.foldl _ _ _) p 0
    have : p ∉ (s.blacklist.filter (fun pt => pt.2 ≤ now)).map Prod.fst := by
      intro hmem
      rcases List.mem_map.mp hmem with ⟨kv, hkv, hfst⟩
      exact hexp kv hkv hfst
    rw [dictGet_foldl_set_of_not_mem _ _ _ _ this]
    exact hfc
  · exact ((List.filter_sublist _).map Prod.fst).nodup hnd

/-- Availability of a blocked proxy is false, and both availability checks
preserve the blocked invariant. -/
theorem isAvailable_blocked (s : ProxyPool) (p : String) (t now : ℚ)
    (h : Blocked p t now s) :
    (s.isAvailable now p).1 = false ∧ Blocked p t now (s.isAvailable now p).2 := by
  have h' := pruneBlacklist_preserves_blocked s p t now h
  constructor
  · simp only [isAvailable, decide_eq_false_iff_not, not_lt]
    exact h'.2.2.1
  · exact h'

theorem isAvailable_preserves_blocked (s : ProxyPool) (p q : String)
    (t now : ℚ) (h : Blocked p t now s) :
    Blocked p t now (s.isAvailable now q).2 :=
  pruneBlacklist_preserves_blocked s p t now h

theorem scanRanked_ne_blocked (p : String) (t now : ℚ) :
    ∀ (lst : List (String × List ℚ)) (s : ProxyPool), Blocked p t now s →
      (scanRanked s now lst).1 ≠ some p ∧ Blocked p t now (scanRanked s now lst).2
  | [], s, h => by
      simp only [scanRanked]
      exact ⟨by simp, h⟩
  | (q, w) :: rest, s, h => by
      have hpres := isAvailable_preserves_blocked s p q t now h
      by_cases hq : q = p
      · have hfalse := (isAvailable_blocked s p t now h).1
        rw [hq] at *
        simp only [scanRanked, hfalse]
        simp only [Bool.false_eq_true, if_false]
        exact scanRanked_ne_blocked p t now rest _ hpres
      · simp only [scanRanked]
        rcases hok : (s.isAvailable now q).1 with _ | _
        · simp only [Bool.false_eq_true, if_false]
          exact scanRanked_ne_blocked p t now rest _ hpres
        · simp only [if_true]
          exact ⟨by simpa using hq, hpres⟩

theorem scanCycle_ne_blocked (p : String) (t now : ℚ) :
    ∀ (fuel : Nat) (s : ProxyPool), Blocked p t now s →
      (scanCycle s now fuel).1 ≠ some p ∧ Blocked p t now (scanCycle s now fuel).2
  | 0, s, h => by
      simp only [scanCycle]
      exact ⟨by simp, h⟩
  | fuel + 1, s, h => by
      simp only [scanCycle]
      by_cases hpx : s.proxies.isEmpty
      · simp only [hpx, if_true]
        exact ⟨by simp, h⟩
      · simp only [hpx, Bool.false_eq_true, if_false]
        set proxy := s.proxies.getD (s.cyclePos % s.proxies.length) "" with hproxy
        set s₁ : ProxyPool :=
          { s with cyclePos := (s.cyclePos + 1) % s.proxies.length } with hs₁
        have h₁ : Blocked p t now s₁ := h
        have hpres := isAvailable_preserves_blocked s₁ p proxy t now h₁
        rcases hok : s₁.isAvailable now proxy with ⟨ok, s₂⟩
        have hpres₂ : Blocked p t now s₂ := by
          rw [hok] at hpres
          exact hpres
        simp only [hok]
        rcases ok with _ | _
        · simp only [Bool.false_eq_true, if_false]
          exact scanCycle_ne_blocked p t now fuel _ hpres₂
        · simp only [if_true]
          refine ⟨?_, hpres₂⟩
          intro hsome
          have hq : proxy = p := by simpa using hsome
          have hfalse := (isAvailable_blocked s₁ p t now h₁).1
          rw [← hq, hok] at hfalse
          simp at hfalse

theorem next_ne_blocked (s : ProxyPool) (p : String) (t now : ℚ)
    (h : Blocked p t now s) : (s.next now).1 ≠ some p := by
  rw [next]
  by_cases hpx : s.proxies = []
  · simp [hpx]
  · simp only [if_neg hpx]
    exact (scanCycle_ne_blocked p t now s.proxies.length s h).1

theorem isAvailable_preserves_cleared (s : ProxyPool) (p q : String)
    (now : ℚ) (h : Cleared p s) : Cleared p (s.isAvailable now q).2 :=
  pruneBlacklist_preserves_cleared s p now h

theorem scanRanked_preserves_cleared (p : String) (now : ℚ) :
    ∀ (lst : List (String × List ℚ)) (s : ProxyPool), Cleared p s →
      Cleared p (scanRanked s now lst).2
  | [], _, h => h
  | (q, w) :: rest, s, h => by
      have hpres := isAvailable_preserves_cleared s p q now h
      simp only [scanRanked]
      rcases hok : s.isAvailable now q with ⟨ok, s'⟩
      have hpres' : Cleared p s' := by
        rw [hok] at hpres
        exact hpres
      rcases ok with _ | _
      · simp only [Bool.false_eq_true, if_false]
        exact scanRanked_preserves_cleared p now rest s' hpres'
      · simp only [if_true]
        exact hpres'

theorem scanCycle_preserves_cleared (p : String) (now : ℚ) :
    ∀ (fuel : Nat) (s : ProxyPool), Cleared p s →
      Cleared p (scanCycle s now fuel).2
  | 0, _, h => h
  | fuel + 1, s, h => by
      simp only [scanCycle]
      by_cases hpx : s.proxies.isEmpty
      · simp only [hpx, if_true]
        exact h
      · simp only [hpx, Bool.false_eq_true, if_false]
        set proxy := s.proxies.getD (s.cyclePos % s.proxies.length) ""
        set s₁ : ProxyPool :=
          { s with cyclePos := (s.cyclePos + 1) % s.proxies.length }
        have h₁ : Cleared p s₁ := h
        have hpres := isAvailable_preserves_cleared s₁ p proxy now h₁
        rcases hok : s₁.isAvailable now proxy with ⟨ok, s₂⟩
        have hpres₂ : Cleared p s₂ := by
          rw [hok] at hpres
          exact hpres
        simp only [hok]
        rcases ok with _ | _
        · simp only [Bool.false_eq_true, if_false]
          exact scanCycle_preserves_cleared p now fuel s₂ hpres₂
        · simp only [if_true]
          exact hpres₂

/-- The first cycle draw of a non-empty pool prunes the blacklist, so an
expired entry is cleared by the time `scanCycle` finishes. -/
theorem scanCycle_clears (s : ProxyPool) (p : String) (t now : ℚ) (fuel : Nat)
    (hnd : (s.blacklist.map Prod.fst).Nodup)
    (hfind : dictFind s.blacklist p = some t) (ht : t ≤ now)
    (hpx : ¬ s.proxies.isEmpty) :
    Cleared p (scanCycle s now (fuel + 1)).2 := by
  simp only [scanCycle, hpx, Bool.false_eq_true, if_false]
  set proxy := s.proxies.getD (s.cyclePos % s.proxies.length) ""
  set s₁ : ProxyPool :=
    { s with cyclePos := (s.cyclePos + 1) % s.proxies.length }
  have hclear : Cleared p (s₁.isAvailable now proxy).2 :=
    pruneBlacklist_clears s₁ p t now hnd hfind ht
  rcases hok : s₁.isAvailable now proxy with ⟨ok, s₂⟩
  have hclear₂ : Cleared p s₂ := by
    rw [hok] at hclear
    exact hclear
  simp only [hok]
  rcases ok with _ | _
  · simp only [Bool.false_eq_true, if_false]
    exact scanCycle_preserves_cleared p now fuel s₂ hclear₂
  · simp only [if_true]
    exact hclear₂

theorem next_preserves_cleared (s : ProxyPool) (p : String) (now : ℚ)
    (h : Cleared p s) : Cleared p (s.next now).2 := by
  rw [next]
  by_cases hpx : s.proxies = []
  · simp only [if_pos hpx]
    exact h
  · simp only [if_neg hpx]
    exact scanCycle_preserves_cleared p now _ s h

theorem next_clears (s : ProxyPool) (p : String) (t now : ℚ)
    (hnd : (s.blacklist.map Prod.fst).Nodup)
    (hfind : dictFind s.blacklist p = some t) (ht : t ≤ now)
    (hpx : ¬ s.proxies = []) : Cleared p (s.next now).2 := by
  rw [next, if_neg hpx]
  rcases hlen : s.proxies.length with _ | n
  · exact absurd (List.length_eq_zero.mp hlen) hpx
  · exact scanCycle_clears s p t now n hnd hfind ht
      (by simpa [List.isEmpty_iff] using hpx)

theorem get_clears (s : ProxyPool) (p : String) (t now : ℚ)
    (hnd : (s.blacklist.map Prod.fst).Nodup)
    (hfind : dictFind s.blacklist p = some t) (ht : t ≤ now)
    (hpx : ¬ s.proxies = []) : Cleared p (s.get now).2 := by
  rw [get, if_neg hpx]
  rcases hrk : s.ranked with _ | ⟨⟨q, w⟩, rest⟩
  · -- empty ranked list: the scan is a no-op and `next` prunes
    simp only [scanRanked]
    exact next_clears s p t now hnd hfind ht hpx
  · -- the first availability check prunes; the invariant then persists
    simp only [scanRanked]
    have hclear : Cleared p (s.isAvailable now q).2 :=
      pruneBlacklist_clears s p t now hnd hfind ht
    rcases hok : s.isAvailable now q with ⟨ok, s'⟩
    have hclear' : Cleared p s' := by
      rw [hok] at hclear
      exact hclear
    simp only [hok]
    rcases ok with _ | _
    · simp only [Bool.false_eq_true, if_false]
      have hrest := scanRanked_preserves_cleared p now rest s' hclear'
      rcases hscan : scanRanked s' now rest with ⟨r, s''⟩
      have hclear'' : Cleared p s'' := by
        rw [hscan] at hrest
        exact hrest
      rcases r with _ | q'
      · exact next_preserves_cleared s'' p now hclear''
      · exact hclear''
    · simp only [if_true]
      exact hclear'

/-! ### `mark_failed` behaviour around the blacklist threshold -/

theorem markFailed_blacklists (s : ProxyPool) (p : String) (now : ℚ)
    (h : s.maxFailures ≤ dictGet s.failCounts p 0 + 1) :
    dictFind (s.markFailed now (some p)).blacklist p = some (now + s.cooldown) ∧
    dictGet (s.markFailed now (some p)).failCounts p 0 =
      dictGet s.failCounts p 0 + 1 := by
  simp only [markFailed, if_pos h]
  exact ⟨dictFind_dictSet_self _ _ _, dictGet_dictSet_self _ _ _ _⟩

theorem markFailed_below (s : ProxyPool) (p : String) (now : ℚ)
    (h : ¬ s.maxFailures ≤ dictGet s.failCounts p 0 + 1) :
    (s.markFailed now (some p)).blacklist = s.blacklist ∧
    dictGet (s.markFailed now (some p)).failCounts p 0 =
      dictGet s.failCounts p 0 + 1 := by
  simp only [markFailed, if_neg h]
  constructor
  · trivial
  · exact dictGet_dictSet_self _ _ _ _

theorem markFailed_maxFailures (s : ProxyPool) (now : ℚ) (pr : Option String) :
    (s.markFailed now pr).maxFailures = s.maxFailures := by
  rcases pr with _ | p
  · rfl
  · simp only [markFailed]
    split <;> rfl

theorem markFailed_cooldown (s : ProxyPool) (now : ℚ) (pr : Option String) :
    (s.markFailed now pr).cooldown = s.cooldown := by
  rcases pr with _ | p
  · rfl
  · simp only [markFailed]
    split <;> rfl

theorem iterMarkFailed_maxFailures (p : String) :
    ∀ (ts : List ℚ) (s : ProxyPool),
      (iterMarkFailed s p ts).maxFailures = s.maxFailures
  | [], _ => rfl
  | t :: ts, s => by
      rw [iterMarkFailed, iterMarkFailed_maxFailures p ts, markFailed_maxFailures]

theorem iterMarkFailed_cooldown (p : String) :
    ∀ (ts : List ℚ) (s : ProxyPool),
      (iterMarkFailed s p ts).cooldown = s.cooldown
  | [], _ => rfl
  | t :: ts, s => by
      rw [iterMarkFailed, iterMarkFailed_cooldown p ts, markFailed_cooldown]

/-- Fewer than `max_failures` consecutive failures never blacklist, and the
failure count tracks them exactly. -/
theorem iterMarkFailed_below (p : String) :
    ∀ (ts : List ℚ) (s : ProxyPool),
      dictFind s.blacklist p = none →
      dictGet s.failCounts p 0 + (ts.length : ℤ) < s.maxFailures →
      dictFind (iterMarkFailed s p ts).blacklist p = none ∧
      dictGet (iterMarkFailed s p ts).failCounts p 0 =
        dictGet s.failCounts p 0 + (ts.length : ℤ)
  | [], s, hbl, _ => ⟨hbl, by simp [iterMarkFailed]⟩
  | t :: ts, s, hbl, hlt => by
      have hlen : ((t :: ts).length : ℤ) = (ts.length : ℤ) + 1 := by
        simp [List.length_cons]
      have hbelow : ¬ s.maxFailures ≤ dictGet s.failCounts p 0 + 1 := by
        rw [hlen] at hlt
        omega
      obtain ⟨hbleq, hfc⟩ := markFailed_below s p t hbelow
      rw [iterMarkFailed]
      have hmax := markFailed_maxFailures s t (some p)
      have hih := iterMarkFailed_below p ts (s.markFailed t (some p))
        (by rw [hbleq]; exact hbl)
        (by rw [hfc, hmax]; rw [hlen] at hlt; omega)
      refine ⟨hih.1, ?_⟩
      rw [hih.2, hfc, hlen]
      ring

end ProxyPool

namespace ProxyPool

theorem get_ne_blocked (s : ProxyPool) (p : String) (t now : ℚ)
    (h : Blocked p t now s) : (s.get now).1 ≠ some p := by
  rw [get]
  by_cases hpx : s.proxies = []
  · simp [hpx]
  · simp only [if_neg hpx]
    rcases hscan : scanRanked s now s.ranked with ⟨r, s'⟩
    have hr := scanRanked_ne_blocked p t now s.ranked s h
    rw [hscan] at hr
    rcases r with _ | q
    · exact next_ne_blocked s' p t now hr.2
    · exact hr.1

end ProxyPool

theorem dictSet_dictSet_self (d : List (String × α)) (k : String) (v w : α) :
    dictSet (dictSet d k v) k w = dictSet d k w := by
  induction d with
  | nil => simp [dictSet]
  | cons kv rest ih =>
      by_cases hk : kv.1 = k
      · simp [dictSet, hk]
      · simp [dictSet, hk, ih]

theorem not_mem_keys_dictPop (d : List (String × α)) (k : String)
    (hnd : (d.map Prod.fst).Nodup) : k ∉ (dictPop d k).map Prod.fst := by
  rw [← dictFind_eq_none_iff]
  exact dictFind_dictPop_self _ _ hnd

/-! ## Claim C6 -/

/-- **C6** (confirmed): `mark_failed` on a proxy whose incremented failure
count reaches `max_failures` stamps `blacklistedUntil = now + cooldown` and
keeps the count at or above the ceiling; and any proxy whose failure count
is at the ceiling while its blacklist entry lies strictly in the future is
returned by neither `get()` nor `next()`. -/
theorem C6_blacklisted_proxy_excluded :
    (∀ (s : ProxyPool) (p : String) (now : ℚ),
        s.maxFailures ≤ dictGet s.failCounts p 0 + 1 →
        dictFind (s.markFailed now (some p)).blacklist p =
            some (now + s.cooldown) ∧
          s.maxFailures ≤ dictGet (s.markFailed now (some p)).failCounts p 0) ∧
    (∀ (s : ProxyPool) (p : String) (t now : ℚ),
        dictFind s.blacklist p = some t → now < t →
        s.maxFailures ≤ dictGet s.failCounts p 0 →
        (s.blacklist.map Prod.fst).Nodup →
        (s.get now).1 ≠ some p ∧ (s.next now).1 ≠ some p) := by
  constructor
  · intro s p now h
    obtain ⟨h1, h2⟩ := ProxyPool.markFailed_blacklists s p now h
    refine ⟨h1, ?_⟩
    rw [h2]
    exact h
  · intro s p t now hfind hnow hfc hnd
    exact ⟨ProxyPool.get_ne_blocked s p t now ⟨hfind, hnow, hfc, hnd⟩,
      ProxyPool.next_ne_blocked s p t now ⟨hfind, hnow, hfc, hnd⟩⟩

/-- Witness for C6 at a concrete pool: `max_failures = 3`, proxy `"a"` at
failure count 2 gets blacklisted by `mark_failed`; a pool with `"a"` at
count 3 and entry expiring at 300 returns `"a"` from neither `get` nor
`next` at time 0. -/
theorem C6_blacklisted_proxy_excluded_witness :
    (dictFind (ProxyPool.markFailed
        ⟨["a"], [("a", 2)], [("a", [])], [], 0, 3, 300⟩ 0 (some "a")).blacklist
        "a" = some (0 + 300) ∧
      (3 : Int) ≤ dictGet (ProxyPool.markFailed
        ⟨["a"], [("a", 2)], [("a", [])], [], 0, 3, 300⟩ 0
          (some "a")).failCounts "a" 0) ∧
    ((ProxyPool.get ⟨["a", "b"], [("a", 3)], [("a", []), ("b", [])],
        [("a", 300)], 0, 3, 300⟩ 0).1 ≠ some "a" ∧
      (ProxyPool.next ⟨["a", "b"], [("a", 3)], [("a", []), ("b", [])],
        [("a", 300)], 0, 3, 300⟩ 0).1 ≠ some "a") :=
  ⟨C6_blacklisted_proxy_excluded.1
      ⟨["a"], [("a", 2)], [("a", [])], [], 0, 3, 300⟩ "a" 0 (by decide),
    C6_blacklisted_proxy_excluded.2
      ⟨["a", "b"], [("a", 3)], [("a", []), ("b", [])], [("a", 300)], 0, 3, 300⟩
      "a" 300 0 (by decide) (by decide) (by decide) (by decide)⟩

/-! ## Claim C9 -/

/-- **C9** (counterexample): with failure count 2 on proxy `"a"`, one
`mark_success` leaves count 1 but a second lowers it to 0 — repeated calls
are not idempotent, contrary to the claim. -/
theorem C9_markSuccess_not_idempotent :
    ProxyPool.markSuccess (ProxyPool.markSuccess
        ⟨["a"], [("a", 2)], [("a", [])], [], 0, 3, 300⟩ (some "a")) (some "a") ≠
      ProxyPool.markSuccess
        ⟨["a"], [("a", 2)], [("a", [])], [], 0, 3, 300⟩ (some "a") := by
  decide

/-- **C9** (amended, confirmed): `mark_success` never lets the failure
count drop below 0 (it decrements with floor 0) and always clears the
blacklist entry; two consecutive calls coincide with one only when the
count was already at most 1. -/
theorem C9_markSuccess_floor_clear :
    ∀ (s : ProxyPool) (p : String),
      0 ≤ dictGet (s.markSuccess (some p)).failCounts p 0 ∧
      dictGet (s.markSuccess (some p)).failCounts p 0 =
        max 0 (dictGet s.failCounts p 0 - 1) ∧
      ((s.blacklist.map Prod.fst).Nodup →
        dictFind (s.markSuccess (some p)).blacklist p = none) ∧
      (dictGet s.failCounts p 0 ≤ 1 → (s.blacklist.map Prod.fst).Nodup →
        (s.markSuccess (some p)).markSuccess (some p) = s.markSuccess (some p)) := by
  intro s p
  have hget : dictGet (s.markSuccess (some p)).failCounts p 0 =
      max 0 (dictGet s.failCounts p 0 - 1) := by
    simp only [ProxyPool.markSuccess]
    exact dictGet_dictSet_self _ _ _ _
  refine ⟨?_, hget, ?_, ?_⟩
  · rw [hget]
    exact le_max_left _ _
  · intro hnd
    simp only [ProxyPool.markSuccess]
    exact dictFind_dictPop_self _ _ hnd
  · intro hle hnd
    simp only [ProxyPool.markSuccess]
    have hzero : max 0 (dictGet s.failCounts p 0 - 1) = 0 :=
      max_eq_left (by omega)
    congr 1
    · rw [dictGet_dictSet_self, hzero, dictSet_dictSet_self]
      norm_num
    · exact dictPop_of_not_mem _ _ (not_mem_keys_dictPop _ _ hnd)

/-- Witness for the amended C9 at a concrete pool (count 1, blacklisted). -/
theorem C9_markSuccess_floor_clear_witness :
    0 ≤ dictGet ((⟨["a"], [("a", 1)], [("a", [])], [("a", 50)], 0, 3, 300⟩ :
        ProxyPool).markSuccess (some "a")).failCounts "a" 0 ∧
    dictGet ((⟨["a"], [("a", 1)], [("a", [])], [("a", 50)], 0, 3, 300⟩ :
        ProxyPool).markSuccess (some "a")).failCounts "a" 0 = max 0 (1 - 1) ∧
    dictFind ((⟨["a"], [("a", 1)], [("a", [])], [("a", 50)], 0, 3, 300⟩ :
        ProxyPool).markSuccess (some "a")).blacklist "a" = none ∧
    ((⟨["a"], [("a", 1)], [("a", [])], [("a", 50)], 0, 3, 300⟩ :
        ProxyPool).markSuccess (some "a")).markSuccess (some "a") =
      (⟨["a"], [("a", 1)], [("a", [])], [("a", 50)], 0, 3, 300⟩ :
        ProxyPool).markSuccess (some "a") := by
  obtain ⟨h1, h2, h3, h4⟩ := C9_markSuccess_floor_clear
    ⟨["a"], [("a", 1)], [("a", [])], [("a", 50)], 0, 3, 300⟩ "a"
  exact ⟨h1, h2, h3 (by decide), h4 (by decide) (by decide)⟩

/-! ## Claim C10 -/

/-- **C10** (confirmed): a proxy with an expired blacklist entry
(`blacklistedUntil ≤ now`) is removed from the blacklist and has its
failure count reset to 0 by the next `get`, `next` or `stats` invocation
(`stats` also reports the reset snapshot); and from such a cleared state,
fewer than `max_failures` fresh `mark_failed` calls never re-blacklist it,
while exactly `max_failures` of them do. -/
theorem C10_expired_blacklist_resets :
    ∀ (s : ProxyPool) (p : String) (t now : ℚ),
      (s.blacklist.map Prod.fst).Nodup →
      dictFind s.blacklist p = some t → t ≤ now →
      (¬ s.proxies = [] →
        ProxyPool.Cleared p (s.get now).2 ∧ ProxyPool.Cleared p (s.next now).2) ∧
      ProxyPool.Cleared p (s.stats now).2 ∧
      dictFind (s.stats now).1.blacklist p = none ∧
      dictGet (s.stats now).1.failCounts p 0 = 0 ∧
      (∀ (s' : ProxyPool), ProxyPool.Cleared p s' →
        (∀ ts : List ℚ, (ts.length : ℤ) < s'.maxFailures →
          dictFind (ProxyPool.iterMarkFailed s' p ts).blacklist p = none) ∧
        (∀ (ts : List ℚ) (t' : ℚ), (ts.length : ℤ) + 1 = s'.maxFailures →
          dictFind ((ProxyPool.iterMarkFailed s' p ts).markFailed t'
              (some p)).blacklist p = some (t' + s'.cooldown))) := by
  intro s p t now hnd hfind ht
  have hstats : ProxyPool.Cleared p (s.pruneBlacklist now) :=
    ProxyPool.pruneBlacklist_clears s p t now hnd hfind ht
  refine ⟨?_, hstats, hstats.1, hstats.2, ?_⟩
  · intro hpx
    exact ⟨ProxyPool.get_clears s p t now hnd hfind ht hpx,
      ProxyPool.next_clears s p t now hnd hfind ht hpx⟩
  · intro s' hcl
    constructor
    · intro ts hlen
      exact (ProxyPool.iterMarkFailed_below p ts s' hcl.1
        (by rw [hcl.2]; omega)).1
    · intro ts t' hlen
      have hiter := ProxyPool.iterMarkFailed_below p ts s' hcl.1
        (by rw [hcl.2]; omega)
      have hmax := ProxyPool.iterMarkFailed_maxFailures p ts s'
      have hcd := ProxyPool.iterMarkFailed_cooldown p ts s'
      have hthr : (ProxyPool.iterMarkFailed s' p ts).maxFailures ≤
          dictGet (ProxyPool.iterMarkFailed s' p ts).failCounts p 0 + 1 := by
        rw [hmax, hiter.2, hcl.2]
        omega
      have := (ProxyPool.markFailed_blacklists _ p t' hthr).1
      rw [hcd] at this
      exact this

/-- Witness for C10: proxy `"a"` blacklisted until 10, consulted at time
20; and the cleared pool then needs three fresh failures to be blacklisted
again. -/
theorem C10_expired_blacklist_resets_witness :
    ProxyPool.Cleared "a"
      ((⟨["a"], [("a", 3)], [("a", [])], [("a", 10)], 0, 3, 300⟩ :
        ProxyPool).get 20).2 ∧
    ProxyPool.Cleared "a"
      ((⟨["a"], [("a", 3)], [("a", [])], [("a", 10)], 0, 3, 300⟩ :
        ProxyPool).stats 20).2 ∧
    dictGet ((⟨["a"], [("a", 3)], [("a", [])], [("a", 10)], 0, 3, 300⟩ :
        ProxyPool).stats 20).1.failCounts "a" 0 = 0 ∧
    dictFind (ProxyPool.iterMarkFailed
        (⟨["a"], [("a", 0)], [("a", [])], [], 0, 3, 300⟩ : ProxyPool)
        "a" [1, 2]).blacklist "a" = none ∧
    dictFind ((ProxyPool.iterMarkFailed
        (⟨["a"], [("a", 0)], [("a", [])], [], 0, 3, 300⟩ : ProxyPool)
        "a" [1, 2]).markFailed 5 (some "a")).blacklist "a" = some (5 + 300) := by
  obtain ⟨hgetnext, hstats, _hbl, hfc, hfresh⟩ :=
    C10_expired_blacklist_resets
      ⟨["a"], [("a", 3)], [("a", [])], [("a", 10)], 0, 3, 300⟩
      "a" 10 20 (by decide) (by decide) (by decide)
  obtain ⟨hbelow, hat⟩ := hfresh
    ⟨["a"], [("a", 0)], [("a", [])], [], 0, 3, 300⟩ ⟨by decide, by decide⟩
  exact ⟨(hgetnext (by decide)).1, hstats, hfc,
    hbelow [1, 2] (by decide), hat [1, 2] 5 (by decide)⟩

/-! ## Claim C3 — circuit breaker -/

theorem cbFailIter_closed (T : Int) (ts : Nat → ℚ) :
    ∀ k : Nat, (k : ℤ) < T →
      cbFailIter T ts k cbFresh =
        { failCount := k, state := .closed, openedAt := 0 }
  | 0, _ => rfl
  | k + 1, h => by
      have hk : (k : ℤ) < T := by push_cast at h ⊢; omega
      rw [cbFailIter, cbFailIter_closed T ts k hk]
      simp only [cbRecordFailure]
      rw [if_neg (by push_cast at h ⊢; omega)]
      have : ((k + 1 : Nat) : ℤ) = (k : ℤ) + 1 := by push_cast; ring
      rw [this]

theorem cbFailIter_opens (T : Int) (ts : Nat → ℚ) (k : Nat)
    (hk1 : 1 ≤ k) (hkT : (k : ℤ) = T) :
    cbFailIter T ts k cbFresh =
      { failCount := T, state := .opened, openedAt := ts (k - 1) } := by
  obtain ⟨k', rfl⟩ : ∃ k', k = k' + 1 := ⟨k - 1, by omega⟩
  have hk' : (k' : ℤ) < T := by push_cast at hkT ⊢; omega
  rw [cbFailIter, cbFailIter_closed T ts k' hk']
  simp only [cbRecordFailure]
  rw [if_pos (by push_cast at hkT ⊢; omega)]
  have h1 : (k' : ℤ) + 1 = T := by push_cast at hkT ⊢; omega
  have h2 : k' + 1 - 1 = k' := by omega
  rw [h1, h2]

/-- **C3** (confirmed): per endpoint record, (1) exactly `failure_threshold`
consecutive recorded failures open the breaker — strictly fewer leave it
closed; (2) while open and `recovery_timeout` has not elapsed, the
admission check rejects, and a `with_retries` call whose endpoint record is
in that state returns the sentinel after zero attempts (no user-agent draw,
no primitive execution); (3) once `recovery_timeout` has elapsed the check
admits, moving the record to half-open; (4) a success recorded there closes
and zeroes the record; (5) a failure recorded there (its count is at the
threshold, as in every reachable half-open record) re-opens it with
`opened_at` reset to the failure time, so a further check inside the new
timeout window rejects again. -/
theorem C3_circuit_breaker_transitions {α : Type} :
    (∀ (T : Int) (ts : Nat → ℚ) (k : Nat),
      ((k : ℤ) < T → (cbFailIter T ts k cbFresh).state = .closed) ∧
      (1 ≤ k → (k : ℤ) = T → (cbFailIter T ts k cbFresh).state = .opened)) ∧
    (∀ (rt now : ℚ) (r : CBRecord), r.state = .opened → now - r.openedAt < rt →
      cbAllow rt now r = (false, r)) ∧
    (∀ (key : String) (bb : ℚ) (ro : PyExn → Bool) (mr : Nat)
        (env : Nat → AttemptEnv α) (eng : Engine) (entryNow : ℚ) (r : CBRecord),
      dictFind eng.cbStore key = some r → r.state = .opened →
      entryNow - r.openedAt < eng.recoveryTimeout →
      (withRetries key bb ro mr env eng entryNow none).retval = .ok none ∧
      (withRetries key bb ro mr env eng entryNow none).attemptsMade = 0 ∧
      (withRetries key bb ro mr env eng entryNow none).uasUsed = []) ∧
    (∀ (rt now : ℚ) (r : CBRecord), r.state = .opened → rt ≤ now - r.openedAt →
      cbAllow rt now r = (true, { r with state := .halfOpen })) ∧
    (∀ (r : CBRecord), r.state = .halfOpen →
      cbRecordSuccess r = { failCount := 0, state := .closed, openedAt := 0 } ∧
      (∀ (T : Int) (now : ℚ), T ≤ r.failCount + 1 →
        cbRecordFailure T now r =
          { failCount := r.failCount + 1, state := .opened, openedAt := now } ∧
        (∀ (rt now' : ℚ), now' - now < rt →
          cbAllow rt now' (cbRecordFailure T now r) =
            (false, cbRecordFailure T now r)))) := by
  have hallowOpen : ∀ (rt now : ℚ) (r : CBRecord), r.state = .opened →
      now - r.openedAt < rt → cbAllow rt now r = (false, r) := by
    intro rt now r hstate helapsed
    simp only [cbAllow, hstate]
    rw [if_neg (not_le.mpr helapsed)]
  refine ⟨?_, hallowOpen, ?_, ?_, ?_⟩
  · intro T ts k
    constructor
    · intro h
      rw [cbFailIter_closed T ts k h]
    · intro h1 h2
      rw [cbFailIter_opens T ts k h1 h2]
  · intro key bb ro mr env eng entryNow r hfind hstate helapsed
    have hallow : cbAllow eng.recoveryTimeout entryNow r = (false, r) :=
      hallowOpen _ _ _ hstate helapsed
    have hstore : cbAllowStore eng.recoveryTimeout entryNow eng.cbStore key =
        (false, dictSet eng.cbStore key r) := by
      simp only [cbAllowStore, cbGet, hfind, hallow]
    simp only [withRetries, hstore]
    exact ⟨rfl, rfl, rfl⟩
  · intro rt now r hstate helapsed
    simp only [cbAllow, hstate]
    rw [if_pos helapsed]
  · intro r _hstate
    refine ⟨rfl, ?_⟩
    intro T now hthr
    have hfail : cbRecordFailure T now r =
        { failCount := r.failCount + 1, state := .opened, openedAt := now } := by
      simp only [cbRecordFailure]
      rw [if_pos hthr]
    refine ⟨hfail, ?_⟩
    intro rt now' hlt
    rw [hfail]
    exact hallowOpen rt now' _ rfl hlt

/-- Witness for C3: threshold 3 on key `"api:/odds"`, record opened at
time 100 with `recovery_timeout` 60. Two failures leave it closed, the
third opens it; a wrapped call at time 130 is short-circuited with zero
attempts; at time 200 the check admits the half-open trial; a success
closes the record, a failure at time 500 re-opens it and a check at 520 is
rejected again. -/
theorem C3_circuit_breaker_transitions_witness :
    (cbFailIter 3 (fun i => (i : ℚ)) 2 cbFresh).state = CBState.closed ∧
    (cbFailIter 3 (fun i => (i : ℚ)) 3 cbFresh).state = CBState.opened ∧
    ((withRetries "api:/odds" 1 defaultRetryOn 3
        (fun _ => ⟨"u", 1, 0, 0, Except.ok none⟩)
        ⟨"u", ProxyPool.init [], [("api:/odds", ⟨3, CBState.opened, 100⟩)],
          Metrics.init, 3, 60, 3⟩ 130 none : RetryTrace Unit).retval =
        Except.ok none ∧
      (withRetries "api:/odds" 1 defaultRetryOn 3
        (fun _ => ⟨"u", 1, 0, 0, Except.ok none⟩)
        ⟨"u", ProxyPool.init [], [("api:/odds", ⟨3, CBState.opened, 100⟩)],
          Metrics.init, 3, 60, 3⟩ 130 none : RetryTrace Unit).attemptsMade = 0) ∧
    cbAllow 60 200 ⟨3, CBState.opened, 100⟩ =
      (true, ⟨3, CBState.halfOpen, 100⟩) ∧
    cbRecordSuccess ⟨3, CBState.halfOpen, 100⟩ = ⟨0, CBState.closed, 0⟩ ∧
    cbRecordFailure 3 500 ⟨3, CBState.halfOpen, 100⟩ =
      ⟨4, CBState.opened, 500⟩ ∧
    cbAllow 60 520 ⟨4, CBState.opened, 500⟩ =
      (false, ⟨4, CBState.opened, 500⟩) := by
  obtain ⟨h1, _h2, h3, h4, h5⟩ := C3_circuit_breaker_transitions (α := Unit)
  refine ⟨(h1 3 (fun i => (i : ℚ)) 2).1 (by decide),
    (h1 3 (fun i => (i : ℚ)) 3).2 (by decide) (by decide), ?_, ?_, ?_, ?_, ?_⟩
  · obtain ⟨ha, hb, _⟩ := h3 "api:/odds" 1 defaultRetryOn 3
      (fun _ => ⟨"u", 1, 0, 0, Except.ok none⟩)
      ⟨"u", ProxyPool.init [], [("api:/odds", ⟨3, CBState.opened, 100⟩)],
        Metrics.init, 3, 60, 3⟩ 130
      ⟨3, CBState.opened, 100⟩ (by decide) (by decide) (by norm_num)
    exact ⟨ha, hb⟩
  · exact h4 60 200 ⟨3, CBState.opened, 100⟩ (by decide) (by norm_num)
  · exact (h5 ⟨3, CBState.halfOpen, 100⟩ (by decide)).1
  · exact ((h5 ⟨3, CBState.halfOpen, 100⟩ (by decide)).2 3 500 (by decide)).1
  · have hre := ((h5 ⟨3, CBState.halfOpen, 100⟩ (by decide)).2 3 500
      (by decide)).2 60 520 (by norm_num)
    rw [((h5 ⟨3, CBState.halfOpen, 100⟩ (by decide)).2 3 500 (by decide)).1]
      at hre
    exact hre

/-! ## Retry-loop traces -/

theorem range_succ_map_shift {β : Type} (g : Nat → β) (r a : Nat) :
    (List.range (r + 1)).map (fun i => g (a + i)) =
      g a :: (List.range r).map (fun i => g (a + 1 + i)) := by
  rw [List.range_succ_eq_map, List.map_cons, List.map_map]
  have hf : ((fun i => g (a + i)) ∘ Nat.succ) = (fun i => g (a + 1 + i)) := by
    funext i
    show g (a + (i + 1)) = g (a + 1 + i)
    congr 1
    omega
  rw [hf, Nat.add_zero]

/-- The components of the shared failure tail of `with_retries`. -/
theorem retryExhaust_spec (α : Type) (cbKey : String) (now : ℚ) (eng : Engine)
    (n : Nat) (sleeps : List ℚ) (uas : List String)
    (proxies : List (Option String)) :
    (retryExhaust α cbKey now eng n sleeps uas proxies).retval =
        Except.ok none ∧
      (retryExhaust α cbKey now eng n sleeps uas proxies).attemptsMade = n ∧
      (retryExhaust α cbKey now eng n sleeps uas proxies).sleeps = sleeps ∧
      (retryExhaust α cbKey now eng n sleeps uas proxies).uasUsed = uas ∧
      (retryExhaust α cbKey now eng n sleeps uas proxies).proxiesUsed =
        proxies ∧
      dictGet (retryExhaust α cbKey now eng n sleeps uas
          proxies).st.metrics.endpointErrors cbKey 0 =
        dictGet eng.metrics.endpointErrors cbKey 0 + 1 :=
  ⟨rfl, rfl, rfl, rfl, rfl, dictGet_dictSet_self _ _ _ _⟩

/-- A run whose every iteration fails retryably exhausts all `remaining`
iterations: it returns the sentinel, sleeps the jittered exponential
backoff after every failing attempt (ignoring any server `Retry-After`,
which appears nowhere in the computation), draws a fresh user-agent per
attempt, and bumps `endpoint_errors[cb_key]` once at the end. -/
theorem retryLoop_allRetryable {α : Type} (cbKey : String) (backoffBase : ℚ)
    (retryOn : PyExn → Bool) (env : Nat → AttemptEnv α)
    (hfail : ∀ n, RetryableFail retryOn (env n).outcome) :
    ∀ (remaining attempt : Nat), 1 ≤ attempt →
      ∀ (eng : Engine) (proxy : Option String) (sleeps : List ℚ)
        (uas : List String) (proxies : List (Option String)),
      (retryLoop cbKey backoffBase retryOn env attempt remaining eng proxy
          sleeps uas proxies).retval = Except.ok none ∧
      (retryLoop cbKey backoffBase retryOn env attempt remaining eng proxy
          sleeps uas proxies).attemptsMade = attempt - 1 + remaining ∧
      (retryLoop cbKey backoffBase retryOn env attempt remaining eng proxy
          sleeps uas proxies).sleeps = sleeps ++ (List.range remaining).map
          (fun i => backoffBase * 2 ^ (attempt + i - 1) *
            (env (attempt + i)).jitter) ∧
      (retryLoop cbKey backoffBase retryOn env attempt remaining eng proxy
          sleeps uas proxies).uasUsed = uas ++ (List.range remaining).map
          (fun i => (env (attempt + i)).uaChoice) ∧
      dictGet (retryLoop cbKey backoffBase retryOn env attempt remaining eng
          proxy sleeps uas proxies).st.metrics.endpointErrors cbKey 0 =
        dictGet eng.metrics.endpointErrors cbKey 0 + 1 := by
  intro remaining
  induction remaining with
  | zero =>
      intro attempt h1 eng proxy sleeps uas proxies
      simp only [retryLoop]
      obtain ⟨e1, e2, e3, e4, _e5, e6⟩ := retryExhaust_spec α cbKey
        (env attempt).now eng (attempt - 1) sleeps uas proxies
      refine ⟨e1, ?_, ?_, ?_, e6⟩
      · rw [e2]
        omega
      · rw [e3]
        simp
      · rw [e4]
        simp
  | succ r ih =>
      intro attempt h1 eng proxy sleeps uas proxies
      obtain ⟨e, he, hro⟩ := hfail attempt
      have hdisp : ∀ (eng' : Engine) (exn : PyExn), retryOn exn = true →
          (retryDispatch cbKey backoffBase retryOn env attempt r eng' proxy exn
              sleeps (uas ++ [(env attempt).uaChoice])
              (proxies ++ [proxy])).retval = Except.ok none ∧
          (retryDispatch cbKey backoffBase retryOn env attempt r eng' proxy exn
              sleeps (uas ++ [(env attempt).uaChoice])
              (proxies ++ [proxy])).attemptsMade = attempt - 1 + (r + 1) ∧
          (retryDispatch cbKey backoffBase retryOn env attempt r eng' proxy exn
              sleeps (uas ++ [(env attempt).uaChoice])
              (proxies ++ [proxy])).sleeps =
            sleeps ++ (List.range (r + 1)).map
              (fun i => backoffBase * 2 ^ (attempt + i - 1) *
                (env (attempt + i)).jitter) ∧
          (retryDispatch cbKey backoffBase retryOn env attempt r eng' proxy exn
              sleeps (uas ++ [(env attempt).uaChoice])
              (proxies ++ [proxy])).uasUsed =
            uas ++ (List.range (r + 1)).map
              (fun i => (env (attempt + i)).uaChoice) ∧
          dictGet (retryDispatch cbKey backoffBase retryOn env attempt r eng'
              proxy exn sleeps (uas ++ [(env attempt).uaChoice])
              (proxies ++ [proxy])).st.metrics.endpointErrors cbKey 0 =
            dictGet eng'.metrics.endpointErrors cbKey 0 + 1 := by
        intro eng' exn hexn
        rw [retryDispatch]
        simp only [hexn, if_true]
        rcases hnext : (({ eng' with
            metrics := { eng'.metrics with
              failedRequests := eng'.metrics.failedRequests + 1
              proxyFail := eng'.metrics.proxyFail +
                (if proxy.isSome then 1 else 0) }
            pool := eng'.pool.markFailed (env attempt).now proxy } :
              Engine).pool.next (env attempt).now) with ⟨proxy', pool'⟩
        simp only [hnext]
        obtain ⟨ih1, ih2, ih3, ih4, ih5⟩ := ih (attempt + 1) (by omega) _
          proxy' (sleeps ++ [backoffBase * 2 ^ (attempt - 1) *
            (env attempt).jitter]) (uas ++ [(env attempt).uaChoice])
          (proxies ++ [proxy])
        refine ⟨ih1, ?_, ?_, ?_, ?_⟩
        · rw [ih2]
          omega
        · rw [ih3, List.append_assoc]
          congr 1
          rw [range_succ_map_shift
            (fun i => backoffBase * 2 ^ (i - 1) * (env i).jitter) r attempt]
          simp
        · rw [ih4, List.append_assoc]
          congr 1
          rw [range_succ_map_shift (fun i => (env i).uaChoice) r attempt]
          simp
        · rw [ih5]
      rcases ho : (env attempt).outcome with exn | v
      · -- the coroutine raised
        rw [ho] at he
        simp only [stepExn, Option.some.injEq] at he
        cases he
        simp only [retryLoop]
        rw [ho]
        exact hdisp _ _ hro
      · rcases v with _ | w
        · -- empty result: `raise RuntimeError("Empty result")`
          rw [ho] at he
          simp only [stepExn, Option.some.injEq] at he
          cases he
          simp only [retryLoop]
          rw [ho]
          exact hdisp _ _ hro
        · -- a success contradicts the all-retryable hypothesis
          rw [ho] at he
          simp [stepExn] at he

/-- On a store with no record for the key yet, the admission check of
`with_retries` creates a fresh closed record and admits, and the initial
proxy is drawn from `proxy_pool.get()`. -/
theorem withRetries_fresh_unfold {α : Type} (cbKey : String) (bb : ℚ)
    (retryOn : PyExn → Bool) (mr : Nat) (env : Nat → AttemptEnv α)
    (eng : Engine) (entryNow : ℚ)
    (hfresh : dictFind eng.cbStore cbKey = none) :
    withRetries cbKey bb retryOn mr env eng entryNow none =
      retryLoop cbKey bb retryOn env 1 mr
        { eng with
          cbStore := dictSet eng.cbStore cbKey cbFresh
          pool := (eng.pool.get entryNow).2 }
        (eng.pool.get entryNow).1 [] [] [] := by
  have hstore : cbAllowStore eng.recoveryTimeout entryNow eng.cbStore cbKey =
      (true, dictSet eng.cbStore cbKey cbFresh) := by
    simp only [cbAllowStore, cbGet, hfresh, cbAllow, cbFresh,
      dictSet_dictSet_self]
  simp only [withRetries, hstore]
  rcases hget : eng.pool.get entryNow with ⟨proxy, pool₁⟩
  simp only [hget]
  simp

/-- A non-retryable failure at attempt `n` (every earlier attempt failing
retryably) makes the loop break out of its budget immediately: exactly `n`
attempts are made, no further sleeps happen, the sentinel is returned, and
the tail bumps `endpoint_errors`. -/
theorem retryLoop_abort {α : Type} (cbKey : String) (backoffBase : ℚ)
    (retryOn : PyExn → Bool) (env : Nat → AttemptEnv α) (n : Nat) (e : PyExn)
    (hn : stepExn (env n).outcome = some e) (hnr : retryOn e = false)
    (hbefore : ∀ k, 1 ≤ k → k < n → RetryableFail retryOn (env k).outcome) :
    ∀ (remaining attempt : Nat), 1 ≤ attempt → attempt ≤ n →
      n < attempt + remaining →
      ∀ (eng : Engine) (proxy : Option String) (sleeps : List ℚ)
        (uas : List String) (proxies : List (Option String)),
      (retryLoop cbKey backoffBase retryOn env attempt remaining eng proxy
          sleeps uas proxies).retval = Except.ok none ∧
      (retryLoop cbKey backoffBase retryOn env attempt remaining eng proxy
          sleeps uas proxies).attemptsMade = n ∧
      (retryLoop cbKey backoffBase retryOn env attempt remaining eng proxy
          sleeps uas proxies).sleeps.length = sleeps.length + (n - attempt) ∧
      dictGet (retryLoop cbKey backoffBase retryOn env attempt remaining eng
          proxy sleeps uas proxies).st.metrics.endpointErrors cbKey 0 =
        dictGet eng.metrics.endpointErrors cbKey 0 + 1 ∧
      (attempt = n →
        (retryLoop cbKey backoffBase retryOn env attempt remaining eng proxy
          sleeps uas proxies).st.metrics.proxyFail = eng.metrics.proxyFail) := by
  intro remaining
  induction remaining with
  | zero =>
      intro attempt _h1 hle hlt
      exact absurd hlt (by omega)
  | succ r ih =>
      intro attempt h1 hle hlt eng proxy sleeps uas proxies
      by_cases hat : attempt = n
      · -- the aborting attempt: the generic `except Exception` branch breaks
        subst hat
        rcases ho : (env attempt).outcome with exn | v
        · rw [ho] at hn
          simp only [stepExn, Option.some.injEq] at hn
          cases hn
          simp only [retryLoop]
          rw [ho]
          simp only [retryDispatch, hnr, Bool.false_eq_true, if_false]
          obtain ⟨x1, x2, x3, _x4, _x5, x6⟩ := retryExhaust_spec α cbKey
            (env attempt).now _ attempt sleeps
            (uas ++ [(env attempt).uaChoice]) (proxies ++ [proxy])
          refine ⟨x1, x2, ?_, x6, fun _ => rfl⟩
          rw [x3]
          omega
        · rcases v with _ | w
          · rw [ho] at hn
            simp only [stepExn, Option.some.injEq] at hn
            cases hn
            simp only [retryLoop]
            rw [ho]
            simp only [retryDispatch, hnr, Bool.false_eq_true, if_false]
            obtain ⟨x1, x2, x3, _x4, _x5, x6⟩ := retryExhaust_spec α cbKey
              (env attempt).now _ attempt sleeps
              (uas ++ [(env attempt).uaChoice]) (proxies ++ [proxy])
            refine ⟨x1, x2, ?_, x6, fun _ => rfl⟩
            rw [x3]
            omega
          · rw [ho] at hn
            simp [stepExn] at hn
      · -- an earlier attempt: fails retryably, the loop continues
        have hlt' : attempt < n := by omega
        obtain ⟨e', he', hro'⟩ := hbefore attempt h1 hlt'
        have hstep : ∀ (eng' : Engine) (exn : PyExn), retryOn exn = true →
            (retryDispatch cbKey backoffBase retryOn env attempt r eng' proxy
                exn sleeps (uas ++ [(env attempt).uaChoice])
                (proxies ++ [proxy])).retval = Except.ok none ∧
            (retryDispatch cbKey backoffBase retryOn env attempt r eng' proxy
                exn sleeps (uas ++ [(env attempt).uaChoice])
                (proxies ++ [proxy])).attemptsMade = n ∧
            (retryDispatch cbKey backoffBase retryOn env attempt r eng' proxy
                exn sleeps (uas ++ [(env attempt).uaChoice])
                (proxies ++ [proxy])).sleeps.length =
              sleeps.length + (n - attempt) ∧
            dictGet (retryDispatch cbKey backoffBase retryOn env attempt r
                eng' proxy exn sleeps (uas ++ [(env attempt).uaChoice])
                (proxies ++ [proxy])).st.metrics.endpointErrors cbKey 0 =
              dictGet eng'.metrics.endpointErrors cbKey 0 + 1 := by
          intro eng' exn hexn
          rw [retryDispatch]
          simp only [hexn, if_true]
          rcases hnext : (({ eng' with
              metrics := { eng'.metrics with
                failedRequests := eng'.metrics.failedRequests + 1
                proxyFail := eng'.metrics.proxyFail +
                  (if proxy.isSome then 1 else 0) }
              pool := eng'.pool.markFailed (env attempt).now proxy } :
                Engine).pool.next (env attempt).now) with ⟨proxy', pool'⟩
          simp only [hnext]
          obtain ⟨i1, i2, i3, i4, _i5⟩ := ih (attempt + 1) (by omega) (by omega)
            (by omega) _ proxy'
            (sleeps ++ [backoffBase * 2 ^ (attempt - 1) * (env attempt).jitter])
            (uas ++ [(env attempt).uaChoice]) (proxies ++ [proxy])
          refine ⟨i1, i2, ?_, i4⟩
          rw [i3]
          simp only [List.length_append, List.length_cons, List.length_nil]
          omega
        rcases ho : (env attempt).outcome with exn | v
        · rw [ho] at he'
          simp only [stepExn, Option.some.injEq] at he'
          cases he'
          simp only [retryLoop]
          rw [ho]
          exact ⟨(hstep _ _ hro').1, (hstep _ _ hro').2.1, (hstep _ _ hro').2.2.1,
            (hstep _ _ hro').2.2.2, fun h => absurd h hat⟩
        · rcases v with _ | w
          · rw [ho] at he'
            simp only [stepExn, Option.some.injEq] at he'
            cases he'
            simp only [retryLoop]
            rw [ho]
            exact ⟨(hstep _ _ hro').1, (hstep _ _ hro').2.1, (hstep _ _ hro').2.2.1,
              (hstep _ _ hro').2.2.2, fun h => absurd h hat⟩
          · rw [ho] at he'
            simp [stepExn] at he'

/-- `with_retries` on a fresh endpoint key whose every attempt fails
retryably: all `max_retries` attempts run, the sentinel comes back, the
`i`-th sleep is `backoff_base * 2^(i-1) * jitter_i` — any server
`Retry-After` value (carried inside the exceptions) never enters the
computation — a fresh user-agent is drawn per attempt, and
`endpoint_errors` is bumped once. -/
theorem withRetries_allRetryable {α : Type} (cbKey : String) (bb : ℚ)
    (retryOn : PyExn → Bool) (mr : Nat) (env : Nat → AttemptEnv α)
    (eng : Engine) (entryNow : ℚ)
    (hfresh : dictFind eng.cbStore cbKey = none)
    (hfail : ∀ n, RetryableFail retryOn (env n).outcome) :
    (withRetries cbKey bb retryOn mr env eng entryNow none).retval =
        Except.ok none ∧
      (withRetries cbKey bb retryOn mr env eng entryNow none).attemptsMade =
        mr ∧
      (withRetries cbKey bb retryOn mr env eng entryNow none).sleeps =
        (List.range mr).map (fun i => bb * 2 ^ i * (env (i + 1)).jitter) ∧
      (withRetries cbKey bb retryOn mr env eng entryNow none).uasUsed =
        (List.range mr).map (fun i => (env (i + 1)).uaChoice) ∧
      dictGet (withRetries cbKey bb retryOn mr env eng entryNow
          none).st.metrics.endpointErrors cbKey 0 =
        dictGet eng.metrics.endpointErrors cbKey 0 + 1 := by
  rw [withRetries_fresh_unfold cbKey bb retryOn mr env eng entryNow hfresh]
  obtain ⟨l1, l2, l3, l4, l5⟩ := retryLoop_allRetryable cbKey bb retryOn env
    hfail mr 1 (by omega) _ (eng.pool.get entryNow).1 [] [] []
  refine ⟨l1, by rw [l2]; omega, ?_, ?_, ?_⟩
  · rw [l3]
    simp only [List.nil_append]
    apply List.map_congr_left
    intro i _
    have hexp : 1 + i - 1 = i := by omega
    have hidx : 1 + i = i + 1 := by omega
    rw [hexp, hidx]
  · rw [l4]
    simp only [List.nil_append]
    apply List.map_congr_left
    intro i _
    have hidx : 1 + i = i + 1 := by omega
    rw [hidx]
  · rw [l5]

/-- `with_retries` on a fresh endpoint key when attempt `n` hits a
non-retryable exception (earlier attempts failing retryably): the loop
breaks at attempt `n` with the rest of the budget unused, returns the
failure sentinel (no exception escapes), and records the circuit-breaker
failure bookkeeping (`endpoint_errors` + 1). -/
theorem withRetries_abort {α : Type} (cbKey : String) (bb : ℚ)
    (retryOn : PyExn → Bool) (mr : Nat) (env : Nat → AttemptEnv α)
    (eng : Engine) (entryNow : ℚ) (n : Nat) (e : PyExn)
    (hfresh : dictFind eng.cbStore cbKey = none)
    (hn : stepExn (env n).outcome = some e) (hnr : retryOn e = false)
    (hbefore : ∀ k, 1 ≤ k → k < n → RetryableFail retryOn (env k).outcome)
    (h1 : 1 ≤ n) (hmr : n ≤ mr) :
    (withRetries cbKey bb retryOn mr env eng entryNow none).retval =
        Except.ok none ∧
      (withRetries cbKey bb retryOn mr env eng entryNow none).attemptsMade =
        n ∧
      (withRetries cbKey bb retryOn mr env eng entryNow
          none).sleeps.length = n - 1 ∧
      dictGet (withRetries cbKey bb retryOn mr env eng entryNow
          none).st.metrics.endpointErrors cbKey 0 =
        dictGet eng.metrics.endpointErrors cbKey 0 + 1 ∧
      (n = 1 →
        (withRetries cbKey bb retryOn mr env eng entryNow
          none).st.metrics.proxyFail = eng.metrics.proxyFail) := by
  rw [withRetries_fresh_unfold cbKey bb retryOn mr env eng entryNow hfresh]
  obtain ⟨a1, a2, a3, a4, a5⟩ := retryLoop_abort cbKey bb retryOn env n e hn hnr
    hbefore mr 1 (by omega) h1 (by omega) _ (eng.pool.get entryNow).1 [] [] []
  refine ⟨a1, a2, ?_, a4, fun h => a5 h.symm⟩
  rw [a3]
  simp

/-- A run failing retryably up to attempt `n - 1` and succeeding at
attempt `n` consumes exactly `n` attempts and returns the value. -/
theorem retryLoop_failThenSuccess {α : Type} (cbKey : String)
    (backoffBase : ℚ) (retryOn : PyExn → Bool) (env : Nat → AttemptEnv α)
    (n : Nat) (v : α) (hok : (env n).outcome = Except.ok (some v))
    (hbefore : ∀ k, 1 ≤ k → k < n → RetryableFail retryOn (env k).outcome) :
    ∀ (remaining attempt : Nat), 1 ≤ attempt → attempt ≤ n →
      n < attempt + remaining →
      ∀ (eng : Engine) (proxy : Option String) (sleeps : List ℚ)
        (uas : List String) (proxies : List (Option String)),
      (retryLoop cbKey backoffBase retryOn env attempt remaining eng proxy
          sleeps uas proxies).retval = Except.ok (some v) ∧
      (retryLoop cbKey backoffBase retryOn env attempt remaining eng proxy
          sleeps uas proxies).attemptsMade = n := by
  intro remaining
  induction remaining with
  | zero =>
      intro attempt _h1 hle hlt
      exact absurd hlt (by omega)
  | succ r ih =>
      intro attempt h1 hle hlt eng proxy sleeps uas proxies
      by_cases hat : attempt = n
      · subst hat
        simp only [retryLoop]
        rw [hok]
        exact ⟨rfl, rfl⟩
      · have hlt' : attempt < n := by omega
        obtain ⟨e', he', hro'⟩ := hbefore attempt h1 hlt'
        have hstep : ∀ (eng' : Engine) (exn : PyExn), retryOn exn = true →
            (retryDispatch cbKey backoffBase retryOn env attempt r eng' proxy
                exn sleeps (uas ++ [(env attempt).uaChoice])
                (proxies ++ [proxy])).retval = Except.ok (some v) ∧
            (retryDispatch cbKey backoffBase retryOn env attempt r eng' proxy
                exn sleeps (uas ++ [(env attempt).uaChoice])
                (proxies ++ [proxy])).attemptsMade = n := by
          intro eng' exn hexn
          rw [retryDispatch]
          simp only [hexn, if_true]
          rcases hnext : (({ eng' with
              metrics := { eng'.metrics with
                failedRequests := eng'.metrics.failedRequests + 1
                proxyFail := eng'.metrics.proxyFail +
                  (if proxy.isSome then 1 else 0) }
              pool := eng'.pool.markFailed (env attempt).now proxy } :
                Engine).pool.next (env attempt).now) with ⟨proxy', pool'⟩
          simp only [hnext]
          exact ih (attempt + 1) (by omega) (by omega) (by omega) _ proxy'
            (sleeps ++ [backoffBase * 2 ^ (attempt - 1) * (env attempt).jitter])
            (uas ++ [(env attempt).uaChoice]) (proxies ++ [proxy])
        rcases ho : (env attempt).outcome with exn | v'
        · rw [ho] at he'
          simp only [stepExn, Option.some.injEq] at he'
          cases he'
          simp only [retryLoop]
          rw [ho]
          exact hstep _ _ hro'
        · rcases v' with _ | w
          · rw [ho] at he'
            simp only [stepExn, Option.some.injEq] at he'
            cases he'
            simp only [retryLoop]
            rw [ho]
            exact hstep _ _ hro'
          · rw [ho] at he'
            simp [stepExn] at he'

/-- `with_retries` on a fresh key: retryable failures before a success at
attempt `n ≤ max_retries` are retried — the call does not abort — and the
value of attempt `n` is returned. -/
theorem withRetries_failThenSuccess {α : Type} (cbKey : String) (bb : ℚ)
    (retryOn : PyExn → Bool) (mr : Nat) (env : Nat → AttemptEnv α)
    (eng : Engine) (entryNow : ℚ) (n : Nat) (v : α)
    (hfresh : dictFind eng.cbStore cbKey = none)
    (hok : (env n).outcome = Except.ok (some v))
    (hbefore : ∀ k, 1 ≤ k → k < n → RetryableFail retryOn (env k).outcome)
    (h1 : 1 ≤ n) (hmr : n ≤ mr) :
    (withRetries cbKey bb retryOn mr env eng entryNow none).retval =
        Except.ok (some v) ∧
      (withRetries cbKey bb retryOn mr env eng entryNow none).attemptsMade =
        n := by
  rw [withRetries_fresh_unfold cbKey bb retryOn mr env eng entryNow hfresh]
  exact retryLoop_failThenSuccess cbKey bb retryOn env n v hok hbefore mr 1
    (by omega) h1 (by omega) _ (eng.pool.get entryNow).1 [] [] []

/-- With an empty proxy pool, every attempt of a retryable-failing run is
made without a proxy (the pool hands out `none` throughout). -/
theorem retryLoop_emptyPool {α : Type} (cbKey : String) (bb : ℚ)
    (retryOn : PyExn → Bool) (env : Nat → AttemptEnv α)
    (hfail : ∀ n, RetryableFail retryOn (env n).outcome) :
    ∀ (remaining attempt : Nat) (eng : Engine), eng.pool.proxies = [] →
      ∀ (sleeps : List ℚ) (uas : List String)
        (proxies : List (Option String)),
      (retryLoop cbKey bb retryOn env attempt remaining eng none sleeps uas
          proxies).proxiesUsed = proxies ++ List.replicate remaining none := by
  intro remaining
  induction remaining with
  | zero =>
      intro attempt eng _hempty sleeps uas proxies
      simp only [retryLoop]
      obtain ⟨_, _, _, _, e5, _⟩ := retryExhaust_spec α cbKey (env attempt).now
        eng (attempt - 1) sleeps uas proxies
      rw [e5]
      simp
  | succ r ih =>
      intro attempt eng hempty sleeps uas proxies
      obtain ⟨e, he, hro⟩ := hfail attempt
      have hstep : ∀ (eng' : Engine) (exn : PyExn), retryOn exn = true →
          eng'.pool.proxies = [] →
          (retryDispatch cbKey bb retryOn env attempt r eng' none exn sleeps
              (uas ++ [(env attempt).uaChoice])
              (proxies ++ [none])).proxiesUsed =
            proxies ++ List.replicate (r + 1) none := by
        intro eng' exn hexn hempty'
        rw [retryDispatch]
        simp only [hexn, if_true]
        have hmf : (eng'.pool.markFailed (env attempt).now none) = eng'.pool :=
          rfl
        have hnext : ∀ (pl : ProxyPool), pl.proxies = [] →
            pl.next (env attempt).now = (none, pl) := by
          intro pl hpl
          rw [ProxyPool.next, if_pos hpl]
        have hnext' : (({ eng' with
            metrics := { eng'.metrics with
              failedRequests := eng'.metrics.failedRequests + 1
              proxyFail := eng'.metrics.proxyFail +
                (if (none : Option String).isSome then 1 else 0) }
            pool := eng'.pool.markFailed (env attempt).now none } :
              Engine).pool.next (env attempt).now) =
            (none, eng'.pool.markFailed (env attempt).now none) := by
          exact hnext _ (by rw [hmf]; exact hempty')
        simp only [hnext']
        have := ih (attempt + 1)
          { eng' with
            metrics := { eng'.metrics with
              failedRequests := eng'.metrics.failedRequests + 1
              proxyFail := eng'.metrics.proxyFail +
                (if (none : Option String).isSome then 1 else 0) }
            pool := eng'.pool.markFailed (env attempt).now none }
          (by rw [hmf]; exact hempty')
          (sleeps ++ [bb * 2 ^ (attempt - 1) * (env attempt).jitter])
          (uas ++ [(env attempt).uaChoice]) (proxies ++ [none])
        rw [this, List.append_assoc]
        simp [List.replicate_succ]
      rcases ho : (env attempt).outcome with exn | v
      · rw [ho] at he
        simp only [stepExn, Option.some.injEq] at he
        cases he
        simp only [retryLoop]
        rw [ho]
        exact hstep _ _ hro (by exact hempty)
      · rcases v with _ | w
        · rw [ho] at he
          simp only [stepExn, Option.some.injEq] at he
          cases he
          simp only [retryLoop]
          rw [ho]
          exact hstep _ _ hro (by exact hempty)
        · rw [ho] at he
          simp [stepExn] at he

/-! ## Claim C7 — browser context cache -/

theorem evictWhileFull_length_lt (l : List (String × CacheEntry)) :
    (evictWhileFull l).length < CONTEXT_CACHE_MAX := by
  induction l with
  | nil =>
      rw [evictWhileFull]
      simp [CONTEXT_CACHE_MAX]
  | cons kv rest ih =>
      rw [evictWhileFull]
      by_cases h : CONTEXT_CACHE_MAX ≤ (kv :: rest).length
      · rw [if_pos h]
        exact ih
      · rw [if_neg h]
        omega

theorem dictSet_length_le (d : List (String × α)) (k : String) (v : α) :
    (dictSet d k v).length ≤ d.length + 1 := by
  induction d with
  | nil => simp [dictSet]
  | cons kv rest ih =>
      by_cases h : kv.1 = k
      · simp [dictSet, h]
      · simp only [dictSet, if_neg h, List.length_cons]
        omega

theorem dictPop_length (d : List (String × α)) (k : String) (v : α)
    (h : dictFind d k = some v) : (dictPop d k).length + 1 = d.length := by
  induction d with
  | nil => simp [dictFind] at h
  | cons kv rest ih =>
      by_cases hk : kv.1 = k
      · simp [dictPop, hk]
      · simp only [dictFind, if_neg hk] at h
        simp only [dictPop, if_neg hk, List.length_cons]
        have := ih h
        omega

theorem moveToEnd_length (d : List (String × α)) (k : String) :
    (moveToEnd d k).length = d.length := by
  rw [moveToEnd]
  rcases h : dictFind d k with _ | v
  · rfl
  · simp only [List.length_append, List.length_cons, List.length_nil]
    have := dictPop_length d k v h
    omega

theorem buildContext_fst (s : CtxCache) (key : String) (now : ℚ)
    (choice : Nat) :
    (getBrowserContext.buildContext s key now choice).1 = s.nextId := rfl

theorem buildContext_cache_length (s : CtxCache) (key : String) (now : ℚ)
    (choice : Nat) :
    (getBrowserContext.buildContext s key now choice).2.cache.length ≤
      CONTEXT_CACHE_MAX := by
  have h1 := dictSet_length_le (evictWhileFull s.cache) key
    (⟨s.nextId, now⟩ : CacheEntry)
  have h2 := evictWhileFull_length_lt s.cache
  show (dictSet (evictWhileFull s.cache) key ⟨s.nextId, now⟩).length ≤ _
  omega

theorem buildContext_uas (s : CtxCache) (key : String) (now : ℚ)
    (choice : Nat) :
    dictFind (getBrowserContext.buildContext s key now choice).2.uas key =
      some s.ua := by
  show dictFind (dictSet _ key s.ua) key = some s.ua
  exact dictFind_dictSet_self _ _ _

/-- **C7** (confirmed): provided the cache holds at most
`CONTEXT_CACHE_MAX` live entries and its handles are well-formed,
`_get_browser_context` (1) leaves at most `CONTEXT_CACHE_MAX` live entries,
(2) leaves the entry under the requested key bound to the engine's current
user-agent, and (3) hands back an already-cached (non-fresh) context handle
only when it sits under the requested proxy key, its stored user-agent
equals the current one, and it is unexpired — a stale- or mismatched-UA
entry is never returned as-is. -/
theorem C7_context_cache_bounded_and_ua_synced :
    ∀ (s : CtxCache) (proxy : Option String) (now : ℚ) (choice : Nat),
      CtxWF s → s.cache.length ≤ CONTEXT_CACHE_MAX →
      (getBrowserContext s proxy now choice).2.cache.length ≤
          CONTEXT_CACHE_MAX ∧
      dictFind (getBrowserContext s proxy now choice).2.uas
          (match proxy with | some p => p | none => "direct") = some s.ua ∧
      (∀ (k₀ : String) (e₀ : CacheEntry), (k₀, e₀) ∈ s.cache →
        (getBrowserContext s proxy now choice).1 = e₀.ctxId →
        k₀ = (match proxy with | some p => p | none => "direct") ∧
        dictFind s.uas k₀ = some s.ua ∧
        now - e₀.createdAt < CONTEXT_TTL_SEC) := by
  intro s proxy now choice hwf hlen
  obtain ⟨hid, hidnd, hknd⟩ := hwf
  set key := (match proxy with | some p => p | none => "direct") with hkey
  have hunfold : getBrowserContext s proxy now choice =
      (match dictFind (ctxPrune s now).cache key with
       | some entry =>
           if dictFind (ctxPrune s now).uas key = some (ctxPrune s now).ua then
             (entry.ctxId,
               { ctxPrune s now with
                 cache := moveToEnd (ctxPrune s now).cache key })
           else
             getBrowserContext.buildContext
               { ctxPrune s now with
                 cache := dictPop (ctxPrune s now).cache key
                 profiles := dictPop (ctxPrune s now).profiles key
                 uas := dictPop (ctxPrune s now).uas key } key now choice
       | none => getBrowserContext.buildContext (ctxPrune s now) key now
           choice) := rfl
  have hprune_cache : (ctxPrune s now).cache =
      s.cache.filter (fun kc => ¬ (CONTEXT_TTL_SEC ≤ now - kc.2.createdAt)) := rfl
  have hprune_ua : (ctxPrune s now).ua = s.ua := rfl
  rw [hunfold]
  rcases hc : dictFind (ctxPrune s now).cache key with _ | entry
  · -- miss: a fresh context is built
    refine ⟨buildContext_cache_length _ _ _ _, buildContext_uas _ _ _ _, ?_⟩
    intro k₀ e₀ hmem heq
    rw [buildContext_fst] at heq
    have heq' : s.nextId = e₀.ctxId := heq
    have hlt : e₀.ctxId < s.nextId := hid (k₀, e₀) hmem
    omega
  · by_cases hua : dictFind (ctxPrune s now).uas key = some (ctxPrune s now).ua
    · -- hit with matching UA: the cached context is reused
      simp only [if_pos hua]
      have hmementry : (key, entry) ∈ (ctxPrune s now).cache := dictFind_mem hc
      have hmem_s : (key, entry) ∈ s.cache := by
        rw [hprune_cache] at hmementry
        exact (List.mem_filter.mp hmementry).1
      have hfresh : ¬ (CONTEXT_TTL_SEC ≤ now - entry.createdAt) := by
        rw [hprune_cache] at hmementry
        have := (List.mem_filter.mp hmementry).2
        simpa using this
      -- the prune only pops keys of expired entries, all different from `key`
      have hne : ∀ kc ∈ s.cache.filter
          (fun kc => CONTEXT_TTL_SEC ≤ now - kc.2.createdAt), kc.1 ≠ key := by
        intro kc hkc hkckey
        rcases List.mem_filter.mp hkc with ⟨hkcmem, hkcexp⟩
        have hkc' : kc = (key, kc.2) := by
          obtain ⟨a, b⟩ := kc
          simp only at hkckey ⊢
          rw [hkckey]
        have : kc.2 = entry := keys_nodup_unique hknd (hkc' ▸ hkcmem) hmem_s
        rw [this] at hkcexp
        exact hfresh (by simpa using hkcexp)
      have hfind : dictFind (ctxPrune s now).uas key = dictFind s.uas key :=
        dictFind_foldl_pop_of_ne _ _ _ hne
      have huas : dictFind s.uas key = some s.ua := by
        rw [hprune_ua] at hua
        rw [← hfind]
        exact hua
      refine ⟨?_, ?_, ?_⟩
      · rw [moveToEnd_length]
        calc (ctxPrune s now).cache.length
            ≤ s.cache.length := by
              rw [hprune_cache]
              exact List.length_filter_le _ _
          _ ≤ CONTEXT_CACHE_MAX := hlen
      · show dictFind (ctxPrune s now).uas key = some s.ua
        rw [hfind]
        exact huas
      · intro k₀ e₀ hmem₀ heq
        have heq' : entry.ctxId = e₀.ctxId := heq
        have hpair : (key, entry) = (k₀, e₀) :=
          List.inj_on_of_nodup_map hidnd hmem_s hmem₀ heq'
        have hk₀ : k₀ = key := (Prod.ext_iff.mp hpair).1.symm
        have he₀ : e₀ = entry := (Prod.ext_iff.mp hpair).2.symm
        refine ⟨hk₀, ?_, ?_⟩
        · rw [hk₀]
          exact huas
        · rw [he₀]
          exact not_le.mp hfresh
    · -- hit with stale UA: the entry is closed and rebuilt
      simp only [if_neg hua]
      refine ⟨buildContext_cache_length _ _ _ _, buildContext_uas _ _ _ _, ?_⟩
      intro k₀ e₀ hmem heq
      rw [buildContext_fst] at heq
      have heq' : s.nextId = e₀.ctxId := heq
      have hlt : e₀.ctxId < s.nextId := hid (k₀, e₀) hmem
      omega

/-- Witness for C7 at a one-entry cache under key `"direct"` whose stored
user-agent matches the engine's. -/
theorem C7_context_cache_bounded_and_ua_synced_witness :
    (getBrowserContext ⟨[("direct", ⟨0, 0⟩)], [], [("direct", "uaX")], "uaX", 1⟩
        none 10 0).2.cache.length ≤ CONTEXT_CACHE_MAX ∧
    dictFind (getBrowserContext
        ⟨[("direct", ⟨0, 0⟩)], [], [("direct", "uaX")], "uaX", 1⟩
        none 10 0).2.uas "direct" = some "uaX" ∧
    (∀ (k₀ : String) (e₀ : CacheEntry),
      (k₀, e₀) ∈ [("direct", (⟨0, 0⟩ : CacheEntry))] →
      (getBrowserContext ⟨[("direct", ⟨0, 0⟩)], [], [("direct", "uaX")], "uaX", 1⟩
          none 10 0).1 = e₀.ctxId →
      k₀ = "direct" ∧ dictFind [("direct", "uaX")] k₀ = some "uaX" ∧
      (10 : ℚ) - e₀.createdAt < CONTEXT_TTL_SEC) :=
  C7_context_cache_bounded_and_ua_synced
    ⟨[("direct", ⟨0, 0⟩)], [], [("direct", "uaX")], "uaX", 1⟩ none 10 0
    ⟨by decide, by decide, by decide⟩ (by decide)

/-! ## Claim C1 — backoff sleep vs `Retry-After` -/

/-- **C1** (counterexample): a wrapped call (with the caller opting into
retrying HTTP status errors) whose attempts fail with a 429 response
carrying `Retry-After: 5` sleeps `1 * 2^0 * 1 = 1` second after attempt 1
and `1 * 2^1 * 1 = 2` after attempt 2 — not `max(5, ...) ≥ 5`: the server
value takes no precedence and is ignored entirely. -/
theorem C1_retry_after_not_honored :
    ((withRetries "api:x" 1 httpErrorRetryOn 2
        (fun n => ⟨if n = 1 then "uaA" else "uaB", 1, 0, 1 / 10,
          Except.error (PyExn.httpStatusError 429 (some 5))⟩)
        ⟨"ua0", ProxyPool.init [], [], Metrics.init, 5, 60, 3⟩ 0 none :
          RetryTrace Nat).sleeps = [1 * 2 ^ 0 * 1, 1 * 2 ^ 1 * 1]) ∧
      ¬ (5 : ℚ) ≤ 1 * 2 ^ 0 * 1 := by
  constructor
  · have h := (withRetries_allRetryable "api:x" 1 httpErrorRetryOn 2
      ((fun n => ⟨if n = 1 then "uaA" else "uaB", 1, 0, 1 / 10,
        Except.error (PyExn.httpStatusError 429 (some 5))⟩) :
          Nat → AttemptEnv Nat)
      ⟨"ua0", ProxyPool.init [], [], Metrics.init, 5, 60, 3⟩ 0 rfl
      (fun _ => ⟨PyExn.httpStatusError 429 (some 5), rfl, rfl⟩)).2.2.1
    rw [h]
    simp [List.range_succ]
  · norm_num

/-- **C1** (amended, confirmed): for every transient (retry_on-matched)
failure on attempt `n` of a wrapped call on a fresh endpoint key, the
sleep before the next attempt equals `backoffBase * 2^(n-1) * jitter_n`
with the jitter drawn per attempt; any server `Retry-After` value (carried
inside the failing responses) never enters the computation. -/
theorem C1_backoff_sleep_formula {α : Type} (cbKey : String) (bb : ℚ)
    (retryOn : PyExn → Bool) (mr : Nat) (env : Nat → AttemptEnv α)
    (eng : Engine) (entryNow : ℚ)
    (hfresh : dictFind eng.cbStore cbKey = none)
    (hfail : ∀ n, RetryableFail retryOn (env n).outcome) :
    (withRetries cbKey bb retryOn mr env eng entryNow none).sleeps =
      (List.range mr).map (fun i => bb * 2 ^ i * (env (i + 1)).jitter) :=
  (withRetries_allRetryable cbKey bb retryOn mr env eng entryNow hfresh
    hfail).2.2.1

/-- Witness for the amended C1 at a concrete three-attempt run with
jitter draw 1/2. -/
theorem C1_backoff_sleep_formula_witness :
    (withRetries "api:x" 1 defaultRetryOn 3
        (fun _ => ⟨"ua", 1 / 2, 0, 0, Except.error PyExn.requestError⟩)
        ⟨"ua0", ProxyPool.init [], [], Metrics.init, 5, 60, 3⟩ 0 none :
          RetryTrace Nat).sleeps =
      (List.range 3).map (fun i => 1 * 2 ^ i *
        ((fun (_ : Nat) => (⟨"ua", 1 / 2, 0, 0,
          Except.error PyExn.requestError⟩ : AttemptEnv Nat)) (i + 1)).jitter) :=
  C1_backoff_sleep_formula "api:x" 1 defaultRetryOn 3 _ _ 0 rfl
    (fun _ => ⟨PyExn.requestError, rfl, rfl⟩)

/-! ## Claim C5 — non-retryable failures -/

/-- **C5** (counterexample): a non-retryable exception (a configuration
error) on attempt 1 of a 3-attempt budget is swallowed, not propagated:
the wrapped call returns the failure sentinel `None` (`Except.ok none`),
never the exception. -/
theorem C5_nonretryable_not_propagated :
    ((withRetries "api:x" 1 defaultRetryOn 3
        (fun _ => ⟨"ua", 1, 0, 0, Except.error (PyExn.otherError "bad config")⟩)
        ⟨"ua0", ProxyPool.init [], [], Metrics.init, 5, 60, 3⟩ 0 none :
          RetryTrace Nat).retval = Except.ok none) ∧
      ((withRetries "api:x" 1 defaultRetryOn 3
        (fun _ => ⟨"ua", 1, 0, 0, Except.error (PyExn.otherError "bad config")⟩)
        ⟨"ua0", ProxyPool.init [], [], Metrics.init, 5, 60, 3⟩ 0 none :
          RetryTrace Nat).retval ≠
        Except.error (PyExn.otherError "bad config")) ∧
      (withRetries "api:x" 1 defaultRetryOn 3
        (fun _ => ⟨"ua", 1, 0, 0, Except.error (PyExn.otherError "bad config")⟩)
        ⟨"ua0", ProxyPool.init [], [], Metrics.init, 5, 60, 3⟩ 0 none :
          RetryTrace Nat).attemptsMade = 1 := by
  obtain ⟨a1, a2, _, _, _⟩ := withRetries_abort "api:x" 1 defaultRetryOn 3
    (fun _ => ⟨"ua", 1, 0, 0, Except.error (PyExn.otherError "bad config")⟩)
    ⟨"ua0", ProxyPool.init [], [], Metrics.init, 5, 60, 3⟩ 0 1
    (PyExn.otherError "bad config") rfl rfl rfl
    (fun _ hk1 hk => absurd hk (by omega)) (by omega) (by omega)
  refine ⟨a1, ?_, a2⟩
  rw [a1]
  simp

/-- **C5** (amended, confirmed): a non-retryable failure at attempt `n` of
a wrapped call on a fresh endpoint key aborts the loop immediately —
the remaining budget is unused and no backoff sleep follows the aborting
attempt — but the exception is swallowed rather than propagated: a
circuit-breaker failure is recorded with `endpoint_errors[key]`
incremented, and the failure sentinel `None` is returned to the caller. -/
theorem C5_nonretryable_aborts_to_sentinel {α : Type} (cbKey : String)
    (bb : ℚ) (retryOn : PyExn → Bool) (mr : Nat) (env : Nat → AttemptEnv α)
    (eng : Engine) (entryNow : ℚ) (n : Nat) (e : PyExn)
    (hfresh : dictFind eng.cbStore cbKey = none)
    (hn : stepExn (env n).outcome = some e) (hnr : retryOn e = false)
    (hbefore : ∀ k, 1 ≤ k → k < n → RetryableFail retryOn (env k).outcome)
    (h1 : 1 ≤ n) (hmr : n ≤ mr) :
    (withRetries cbKey bb retryOn mr env eng entryNow none).retval =
        Except.ok none ∧
      (withRetries cbKey bb retryOn mr env eng entryNow none).attemptsMade =
        n ∧
      (withRetries cbKey bb retryOn mr env eng entryNow
          none).sleeps.length = n - 1 ∧
      dictGet (withRetries cbKey bb retryOn mr env eng entryNow
          none).st.metrics.endpointErrors cbKey 0 =
        dictGet eng.metrics.endpointErrors cbKey 0 + 1 := by
  obtain ⟨a1, a2, a3, a4, _⟩ := withRetries_abort cbKey bb retryOn mr env eng
    entryNow n e hfresh hn hnr hbefore h1 hmr
  exact ⟨a1, a2, a3, a4⟩

/-- Witness for the amended C5: attempt 1 fails retryably, attempt 2 hits
a non-retryable error with three attempts of budget left. -/
theorem C5_nonretryable_aborts_to_sentinel_witness :
    (withRetries "api:x" 1 defaultRetryOn 5
        (fun n => if n = 1 then ⟨"uaA", 1, 0, 0, Except.error PyExn.requestError⟩
          else ⟨"uaB", 1, 0, 0, Except.error (PyExn.otherError "boom")⟩)
        ⟨"ua0", ProxyPool.init [], [], Metrics.init, 5, 60, 3⟩ 0 none :
          RetryTrace Nat).retval = Except.ok none ∧
      (withRetries "api:x" 1 defaultRetryOn 5
        (fun n => if n = 1 then ⟨"uaA", 1, 0, 0, Except.error PyExn.requestError⟩
          else ⟨"uaB", 1, 0, 0, Except.error (PyExn.otherError "boom")⟩)
        ⟨"ua0", ProxyPool.init [], [], Metrics.init, 5, 60, 3⟩ 0 none :
          RetryTrace Nat).attemptsMade = 2 ∧
      (withRetries "api:x" 1 defaultRetryOn 5
        (fun n => if n = 1 then ⟨"uaA", 1, 0, 0, Except.error PyExn.requestError⟩
          else ⟨"uaB", 1, 0, 0, Except.error (PyExn.otherError "boom")⟩)
        ⟨"ua0", ProxyPool.init [], [], Metrics.init, 5, 60, 3⟩ 0 none :
          RetryTrace Nat).sleeps.length = 2 - 1 ∧
      dictGet (withRetries "api:x" 1 defaultRetryOn 5
        (fun n => if n = 1 then ⟨"uaA", 1, 0, 0, Except.error PyExn.requestError⟩
          else ⟨"uaB", 1, 0, 0, Except.error (PyExn.otherError "boom")⟩)
        ⟨"ua0", ProxyPool.init [], [], Metrics.init, 5, 60, 3⟩ 0 none :
          RetryTrace Nat).st.metrics.endpointErrors "api:x" 0 =
        dictGet (Metrics.init).endpointErrors "api:x" 0 + 1 :=
  C5_nonretryable_aborts_to_sentinel "api:x" 1 defaultRetryOn 5 _ _ 0 2
    (PyExn.otherError "boom") rfl rfl rfl
    (fun k hk1 hk2 => by
      have hk : k = 1 := by omega
      subst hk
      exact ⟨PyExn.requestError, rfl, rfl⟩)
    (by omega) (by omega)

/-! ## Claim C8 — empty proxy list ("direct mode") -/

/-- With an empty proxy pool and a fresh endpoint key, a retryable-failing
run uses no proxy on any attempt: the recorded proxies are `mr` copies of
`none`. -/
theorem withRetries_emptyPool {α : Type} (cbKey : String) (bb : ℚ)
    (retryOn : PyExn → Bool) (mr : Nat) (env : Nat → AttemptEnv α)
    (eng : Engine) (entryNow : ℚ)
    (hempty : eng.pool.proxies = [])
    (hfresh : dictFind eng.cbStore cbKey = none)
    (hfail : ∀ n, RetryableFail retryOn (env n).outcome) :
    (withRetries cbKey bb retryOn mr env eng entryNow none).proxiesUsed =
      List.replicate mr none := by
  rw [withRetries_fresh_unfold cbKey bb retryOn mr env eng entryNow hfresh]
  have hg : eng.pool.get entryNow = (none, eng.pool) := by
    simp [ProxyPool.get, hempty]
  rw [hg]
  have h := retryLoop_emptyPool cbKey bb retryOn env hfail mr 1
    { eng with
      cbStore := dictSet eng.cbStore cbKey cbFresh
      pool := eng.pool } hempty [] [] []
  simpa using h

/-- **C8** (counterexample): with the configured proxy list empty the pool
does hand out `none` throughout, but the engine does NOT pin a single fixed
user-agent: `self.ua = random.choice(self.USER_AGENTS)` runs unconditionally
at the top of every attempt, so a two-attempt run can use two distinct
user agents. -/
theorem C8_ua_rotation_despite_direct_mode :
    ((withRetries "api:x" 1 defaultRetryOn 2
        (fun n => ⟨if n = 1 then "uaA" else "uaB", 1, 0, 0,
          Except.error PyExn.requestError⟩)
        ⟨"ua0", ProxyPool.init [], [], Metrics.init, 5, 60, 3⟩ 0 none :
          RetryTrace Nat).uasUsed = ["uaA", "uaB"]) ∧
      ¬ ("uaA" : String) = "uaB" ∧
      ((withRetries "api:x" 1 defaultRetryOn 2
        (fun n => ⟨if n = 1 then "uaA" else "uaB", 1, 0, 0,
          Except.error PyExn.requestError⟩)
        ⟨"ua0", ProxyPool.init [], [], Metrics.init, 5, 60, 3⟩ 0 none :
          RetryTrace Nat).proxiesUsed = [none, none]) := by
  refine ⟨?_, by decide, ?_⟩
  · have h := (withRetries_allRetryable "api:x" 1 defaultRetryOn 2
      ((fun n => ⟨if n = 1 then "uaA" else "uaB", 1, 0, 0,
        Except.error PyExn.requestError⟩) : Nat → AttemptEnv Nat)
      ⟨"ua0", ProxyPool.init [], [], Metrics.init, 5, 60, 3⟩ 0 rfl
      (fun _ => ⟨PyExn.requestError, rfl, rfl⟩)).2.2.2.1
    rw [h]
    simp [List.range_succ]
  · have h := withRetries_emptyPool "api:x" 1 defaultRetryOn 2
      ((fun n => ⟨if n = 1 then "uaA" else "uaB", 1, 0, 0,
        Except.error PyExn.requestError⟩) : Nat → AttemptEnv Nat)
      ⟨"ua0", ProxyPool.init [], [], Metrics.init, 5, 60, 3⟩ 0
      (by simp [ProxyPool.init, pyDedup]) rfl
      (fun _ => ⟨PyExn.requestError, rfl, rfl⟩)
    rw [h]
    simp [List.replicate]

/-- **C8** (amended, confirmed): with an empty configured proxy list,
`get()` and `next()` always return `None` without changing the pool, and a
wrapped run on a fresh endpoint key attaches no proxy to any attempt; the
user-agent, however, is still re-drawn per attempt (`uasUsed` lists the per
attempt draws), not pinned to a single fixed default. -/
theorem C8_direct_mode_no_proxy {α : Type} (s : ProxyPool) (now : ℚ)
    (cbKey : String) (bb : ℚ) (retryOn : PyExn → Bool) (mr : Nat)
    (env : Nat → AttemptEnv α) (eng : Engine) (entryNow : ℚ)
    (hs : s.proxies = []) (hempty : eng.pool.proxies = [])
    (hfresh : dictFind eng.cbStore cbKey = none)
    (hfail : ∀ n, RetryableFail retryOn (env n).outcome) :
    s.get now = (none, s) ∧ s.next now = (none, s) ∧
      (withRetries cbKey bb retryOn mr env eng entryNow none).proxiesUsed =
        List.replicate mr none ∧
      (withRetries cbKey bb retryOn mr env eng entryNow none).uasUsed =
        (List.range mr).map (fun i => (env (i + 1)).uaChoice) := by
  refine ⟨?_, ?_, ?_, ?_⟩
  · simp [ProxyPool.get, hs]
  · simp [ProxyPool.next, hs]
  · exact withRetries_emptyPool cbKey bb retryOn mr env eng entryNow hempty
      hfresh hfail
  · exact (withRetries_allRetryable cbKey bb retryOn mr env eng entryNow
      hfresh hfail).2.2.2.1

/-- Witness for the amended C8 at a concrete three-attempt run over an
empty pool. -/
theorem C8_direct_mode_no_proxy_witness :
    (ProxyPool.init []).get 7 = (none, ProxyPool.init []) ∧
      (ProxyPool.init []).next 7 = (none, ProxyPool.init []) ∧
      ((withRetries "api:x" 1 defaultRetryOn 3
        (fun _ => ⟨"ua", 1, 0, 0, Except.error PyExn.pwError⟩)
        ⟨"ua0", ProxyPool.init [], [], Metrics.init, 5, 60, 3⟩ 0 none :
          RetryTrace Nat).proxiesUsed = List.replicate 3 none) ∧
      ((withRetries "api:x" 1 defaultRetryOn 3
        (fun _ => ⟨"ua", 1, 0, 0, Except.error PyExn.pwError⟩)
        ⟨"ua0", ProxyPool.init [], [], Metrics.init, 5, 60, 3⟩ 0 none :
          RetryTrace Nat).uasUsed = (List.range 3).map (fun i =>
        ((fun (_ : Nat) => (⟨"ua", 1, 0, 0,
          Except.error PyExn.pwError⟩ : AttemptEnv Nat)) (i + 1)).uaChoice)) :=
  C8_direct_mode_no_proxy (ProxyPool.init []) 7 "api:x" 1 defaultRetryOn 3
    (fun _ => ⟨"ua", 1, 0, 0, Except.error PyExn.pwError⟩)
    ⟨"ua0", ProxyPool.init [], [], Metrics.init, 5, 60, 3⟩ 0
    (by simp [ProxyPool.init, pyDedup]) (by simp [ProxyPool.init, pyDedup])
    rfl (fun _ => ⟨PyExn.pwError, rfl, rfl⟩)

/-! ## Claim C2 — which failures count as transient -/

/-- **C2** (code bug): the spec and the inline comment
(`# treat empty result as a soft failure`) say an HTTP 429/5xx response and
an empty result are transient failures — proxy marked failed, backoff,
retry. In the code the default `retry_on = (httpx.RequestError, PWError)`
matches neither `httpx.HTTPStatusError` (which `raise_for_status()` raises
for 429/5xx and which is NOT a subclass of `httpx.RequestError`) nor the
`RuntimeError("Empty result")` raised for an empty result, so both fall to
the generic `except Exception` handler and abort the loop after a single
attempt with no backoff sleep and no `mark_failed` — while a connection
error is genuinely retried. Concretely, under the default retry predicate:
a 429 response aborts after attempt 1 (no sleep, proxy-failure metric
untouched, sentinel returned); an empty result does the same; a connection
error on attempt 1 is retried and the run succeeds on attempt 2. -/
theorem C2_status_and_empty_not_retried :
    tryApiOutcome (HttpFetch.resp 429 "text/html" (some 5) (0 : Nat)) =
        Except.error (PyExn.httpStatusError 429 (some 5)) ∧
      tryApiOutcome (HttpFetch.resp 200 "text/html" none (0 : Nat)) =
        Except.ok none ∧
      defaultRetryOn (PyExn.httpStatusError 429 (some 5)) = false ∧
      defaultRetryOn (PyExn.runtimeError "Empty result") = false ∧
      ((withRetries "api:x" 1 defaultRetryOn 3
        (fun _ => ⟨"ua", 1, 0, 0,
          tryApiOutcome (HttpFetch.resp 429 "text/html" (some 5) (0 : Nat))⟩)
        ⟨"ua0", ProxyPool.init [], [], Metrics.init, 5, 60, 3⟩ 0 none :
          RetryTrace Nat).attemptsMade = 1) ∧
      ((withRetries "api:x" 1 defaultRetryOn 3
        (fun _ => ⟨"ua", 1, 0, 0,
          tryApiOutcome (HttpFetch.resp 429 "text/html" (some 5) (0 : Nat))⟩)
        ⟨"ua0", ProxyPool.init [], [], Metrics.init, 5, 60, 3⟩ 0 none :
          RetryTrace Nat).sleeps.length = 0) ∧
      ((withRetries "api:x" 1 defaultRetryOn 3
        (fun _ => ⟨"ua", 1, 0, 0,
          tryApiOutcome (HttpFetch.resp 429 "text/html" (some 5) (0 : Nat))⟩)
        ⟨"ua0", ProxyPool.init [], [], Metrics.init, 5, 60, 3⟩ 0 none :
          RetryTrace Nat).st.metrics.proxyFail = Metrics.init.proxyFail) ∧
      ((withRetries "api:x" 1 defaultRetryOn 3
        (fun _ => ⟨"ua", 1, 0, 0,
          tryApiOutcome (HttpFetch.resp 429 "text/html" (some 5) (0 : Nat))⟩)
        ⟨"ua0", ProxyPool.init [], [], Metrics.init, 5, 60, 3⟩ 0 none :
          RetryTrace Nat).retval = Except.ok none) ∧
      ((withRetries "api:x" 1 defaultRetryOn 3
        (fun _ => ⟨"ua", 1, 0, 0,
          tryApiOutcome (HttpFetch.resp 200 "text/html" none (0 : Nat))⟩)
        ⟨"ua0", ProxyPool.init [], [], Metrics.init, 5, 60, 3⟩ 0 none :
          RetryTrace Nat).attemptsMade = 1) ∧
      ((withRetries "api:x" 1 defaultRetryOn 3
        (fun _ => ⟨"ua", 1, 0, 0,
          tryApiOutcome (HttpFetch.resp 200 "text/html" none (0 : Nat))⟩)
        ⟨"ua0", ProxyPool.init [], [], Metrics.init, 5, 60, 3⟩ 0 none :
          RetryTrace Nat).sleeps.length = 0) ∧
      ((withRetries "api:x" 1 defaultRetryOn 3
        (fun n => if n = 1 then ⟨"ua", 1, 0, 0, Except.error PyExn.requestError⟩
          else ⟨"ua", 1, 0, 0, Except.ok (some 7)⟩)
        ⟨"ua0", ProxyPool.init [], [], Metrics.init, 5, 60, 3⟩ 0 none :
          RetryTrace Nat).attemptsMade = 2) ∧
      ((withRetries "api:x" 1 defaultRetryOn 3
        (fun n => if n = 1 then ⟨"ua", 1, 0, 0, Except.error PyExn.requestError⟩
          else ⟨"ua", 1, 0, 0, Except.ok (some 7)⟩)
        ⟨"ua0", ProxyPool.init [], [], Metrics.init, 5, 60, 3⟩ 0 none :
          RetryTrace Nat).retval = Except.ok (some 7)) := by
  have h429 : tryApiOutcome (HttpFetch.resp 429 "text/html" (some 5)
      (0 : Nat)) = Except.error (PyExn.httpStatusError 429 (some 5)) := by
    simp only [tryApiOutcome]
    rw [if_pos (by decide)]
  have hhtml : tryApiOutcome (HttpFetch.resp 200 "text/html" none (0 : Nat)) =
      Except.ok none := by
    simp only [tryApiOutcome]
    rw [if_neg (by decide), if_neg (by decide)]
  obtain ⟨a1, a2, a3, _, a5⟩ := withRetries_abort "api:x" 1 defaultRetryOn 3
    ((fun _ => ⟨"ua", 1, 0, 0,
      tryApiOutcome (HttpFetch.resp 429 "text/html" (some 5) (0 : Nat))⟩) :
        Nat → AttemptEnv Nat)
    ⟨"ua0", ProxyPool.init [], [], Metrics.init, 5, 60, 3⟩ 0 1
    (PyExn.httpStatusError 429 (some 5)) rfl (by rw [h429]; rfl) rfl
    (fun _ hk1 hk => absurd hk (by omega)) (by omega) (by omega)
  obtain ⟨b1, b2, b3, _, b5⟩ := withRetries_abort "api:x" 1 defaultRetryOn 3
    ((fun _ => ⟨"ua", 1, 0, 0,
      tryApiOutcome (HttpFetch.resp 200 "text/html" none (0 : Nat))⟩) :
        Nat → AttemptEnv Nat)
    ⟨"ua0", ProxyPool.init [], [], Metrics.init, 5, 60, 3⟩ 0 1
    (PyExn.runtimeError "Empty result") rfl (by rw [hhtml]; rfl) rfl
    (fun _ hk1 hk => absurd hk (by omega)) (by omega) (by omega)
  obtain ⟨c1, c2⟩ := withRetries_failThenSuccess "api:x" 1 defaultRetryOn 3
    ((fun n => if n = 1 then ⟨"ua", 1, 0, 0, Except.error PyExn.requestError⟩
      else ⟨"ua", 1, 0, 0, Except.ok (some 7)⟩) : Nat → AttemptEnv Nat)
    ⟨"ua0", ProxyPool.init [], [], Metrics.init, 5, 60, 3⟩ 0 2 7 rfl rfl
    (fun k hk1 hk2 => by
      have hk : k = 1 := by omega
      subst hk
      exact ⟨PyExn.requestError, rfl, rfl⟩)
    (by omega) (by omega)
  exact ⟨h429, hhtml, rfl, rfl, a2, a3, a5 rfl, a1, b2, b3, c2, c1⟩

/-! ## Claim C4 — the three-tier strategy chain of `get_odds` -/

/-- The API block invokes its fetch exactly when an endpoint is configured. -/
theorem apiStage_snd {J H M : Type} (apiEndpoint : Option String)
    (env : OddsEnv J H M) :
    (apiStage apiEndpoint env).2 = [] ∨
      (apiStage apiEndpoint env).2 = [Tier.api] := by
  cases apiEndpoint with
  | none => exact Or.inl rfl
  | some e =>
      right
      cases hres : env.apiResult with
      | none => simp [apiStage, hres]
      | some data =>
          by_cases ht : env.apiTruthy data
          · cases hp : env.parseApi data with
            | ok parsed => simp [apiStage, hres, ht, hp]
            | error msg => simp [apiStage, hres, ht, hp]
          · simp [apiStage, hres, ht]

/-- The static-HTML block is skipped entirely once matches were collected. -/
theorem htmlStage_of_nonempty {J H M : Type} (env : OddsEnv J H M)
    (acc : List M × List Tier) (h : acc.1 ≠ []) : htmlStage env acc = acc := by
  unfold htmlStage
  rw [if_neg]
  simpa [List.isEmpty_iff] using h

/-- The static-HTML fetch is invoked whenever matches are still empty. -/
theorem htmlStage_snd_of_empty {J H M : Type} (env : OddsEnv J H M)
    (acc : List M × List Tier) (h : acc.1 = []) :
    (htmlStage env acc).2 = acc.2 ++ [Tier.staticHtml] := by
  unfold htmlStage
  rw [if_pos (by simpa [List.isEmpty_iff] using h)]
  cases hres : env.htmlResult with
  | none => rfl
  | some soup =>
      by_cases ht : env.htmlTruthy soup
      · cases hp : (env.paginate soup).bind env.parseHtml with
        | ok parsed => simp [ht, hp]
        | error msg => simp [ht, hp]
      · simp [ht]

/-- The browser block is skipped entirely once matches were collected. -/
theorem browserStage_of_nonempty {J H M : Type} (env : OddsEnv J H M)
    (acc : List M × List Tier) (h : acc.1 ≠ []) :
    browserStage env acc = acc := by
  unfold browserStage
  rw [if_neg]
  simpa [List.isEmpty_iff] using h

/-- The browser fetch is invoked whenever matches are still empty. -/
theorem browserStage_snd_of_empty {J H M : Type} (env : OddsEnv J H M)
    (acc : List M × List Tier) (h : acc.1 = []) :
    (browserStage env acc).2 = acc.2 ++ [Tier.browser] := by
  unfold browserStage
  rw [if_pos (by simpa [List.isEmpty_iff] using h)]
  cases hres : env.browserResult with
  | none => rfl
  | some html =>
      by_cases ht : ¬ (html = "")
      · cases hp : (env.paginate (env.soupOf html)).bind env.parseHtml with
        | ok parsed => simp [ht, hp]
        | error msg => simp [ht, hp]
      · simp [ht]

/-- **C4**: `get_odds` runs its tiers strictly in the order API, static
HTML, browser (the invoked tiers always form a subsequence of that order);
a tier that collects matches stops the chain — if the API block collected
matches the later blocks do not run, and if matches are present after the
static-HTML block the browser tier is never invoked. -/
theorem C4_tier_order_and_stop {J H M : Type} (apiEndpoint : Option String)
    (env : OddsEnv J H M) :
    (getOdds apiEndpoint env).2.Sublist
        [Tier.api, Tier.staticHtml, Tier.browser] ∧
      ((apiStage apiEndpoint env).1 ≠ [] →
        getOdds apiEndpoint env = apiStage apiEndpoint env) ∧
      ((htmlStage env (apiStage apiEndpoint env)).1 ≠ [] →
        getOdds apiEndpoint env = htmlStage env (apiStage apiEndpoint env)) ∧
      ((htmlStage env (apiStage apiEndpoint env)).1 ≠ [] →
        Tier.browser ∉ (getOdds apiEndpoint env).2) := by
  have hapi : (apiStage apiEndpoint env).2.Sublist [Tier.api] := by
    rcases apiStage_snd apiEndpoint env with h | h
    · rw [h]; exact List.nil_sublist _
    · rw [h]
  have hhtml_stop : (htmlStage env (apiStage apiEndpoint env)).1 ≠ [] →
      getOdds apiEndpoint env = htmlStage env (apiStage apiEndpoint env) :=
    fun h => browserStage_of_nonempty env _ h
  have hhtml_nb : Tier.browser ∉
      (htmlStage env (apiStage apiEndpoint env)).2 := by
    by_cases he : (apiStage apiEndpoint env).1 = []
    · rw [htmlStage_snd_of_empty env _ he]
      intro hmem
      rcases List.mem_append.mp hmem with hm | hm
      · have := hapi.subset hm
        simp at this
      · simp at hm
    · rw [htmlStage_of_nonempty env _ he]
      intro hmem
      have := hapi.subset hmem
      simp at this
  refine ⟨?_, ?_, hhtml_stop, fun h => by rw [hhtml_stop h]; exact hhtml_nb⟩
  · unfold getOdds
    by_cases he : (apiStage apiEndpoint env).1 = []
    · by_cases hh : (htmlStage env (apiStage apiEndpoint env)).1 = []
      · rw [browserStage_snd_of_empty env _ hh,
          htmlStage_snd_of_empty env _ he]
        have h1 : List.Sublist
            (((apiStage apiEndpoint env).2 ++ [Tier.staticHtml]) ++
              [Tier.browser])
            (([Tier.api] ++ [Tier.staticHtml]) ++ [Tier.browser]) :=
          List.Sublist.append (List.Sublist.append hapi (List.Sublist.refl _))
            (List.Sublist.refl _)
        simpa using h1
      · rw [browserStage_of_nonempty env _ hh,
          htmlStage_snd_of_empty env _ he]
        have h1 : List.Sublist
            ((apiStage apiEndpoint env).2 ++ [Tier.staticHtml])
            ([Tier.api] ++ [Tier.staticHtml]) :=
          List.Sublist.append hapi (List.Sublist.refl _)
        have h2 : List.Sublist ([Tier.api] ++ [Tier.staticHtml] : List Tier)
            [Tier.api, Tier.staticHtml, Tier.browser] := by
          decide
        exact h1.trans h2
    · rw [htmlStage_of_nonempty env _ he, browserStage_of_nonempty env _ he]
      exact hapi.trans (by decide)
  · intro h
    unfold getOdds
    rw [htmlStage_of_nonempty env _ h, browserStage_of_nonempty env _ h]

/-- Witness for C4: the API tier is configured but parses to an empty
list, the static-HTML tier parses three records — `get_odds` returns the
three records having invoked only the API and static-HTML tiers, and the
browser tier is never invoked. -/
theorem C4_tier_order_and_stop_witness :
    getOdds (some "e")
        (⟨some 0, fun _ => true, fun _ => Except.ok [], some 1,
          fun _ => true, Except.ok, fun _ => Except.ok [3, 4, 5], some "x",
          fun _ => 0⟩ : OddsEnv Nat Nat Nat) =
      ([3, 4, 5], [Tier.api, Tier.staticHtml]) ∧
    Tier.browser ∉ (getOdds (some "e")
        (⟨some 0, fun _ => true, fun _ => Except.ok [], some 1,
          fun _ => true, Except.ok, fun _ => Except.ok [3, 4, 5], some "x",
          fun _ => 0⟩ : OddsEnv Nat Nat Nat)).2 := by
  have h := C4_tier_order_and_stop (some "e")
    (⟨some 0, fun _ => true, fun _ => Except.ok [], some 1,
      fun _ => true, Except.ok, fun _ => Except.ok [3, 4, 5], some "x",
      fun _ => 0⟩ : OddsEnv Nat Nat Nat)
  refine ⟨?_, h.2.2.2 (by decide)⟩
  rw [h.2.2.1 (by decide)]
  decide

end BotArb
